import Mathlib

/-!
Share manager (ownCloud flavour) and API status mapping of `reva`.

A shallow embedding of

* `api/api.go`: `ContextGetUser`, `ContextSetUser`, `GetStatus`;
* `api/share_manager_owncloud/share_manager_owncloud.go`: the file-id codec
  (`splitFileID`, `joinFileID`), `getUserFromContext`, `convertToFolderShare`,
  `getDBShare`, `getDBShares` and the five share-manager operations.

Conventions of the embedding.

* A Go `string` is a sequence of bytes (`GoString`).
* A Go call ends in one of three ways (`Outcome`): it returns normally, it
  returns a non-nil `error`, or it stops with a run-time panic.
* The SQL database, the virtual storage and the clock are outside the
  repository.  They are parameters (`Env`): each call to them is a function of
  an abstract external state, and every database or storage call is recorded
  as an `Event`.
* Declarations of package `api` that the two files use but do not contain (the
  error-code constants and `NewError`) are parameters (`ApiDecls`).
* Logging (`ctx_zap`, `zap`) has no influence on results and is left out.
-/

namespace Reva

/-! ## Go strings and the `strings` functions used by the codec -/

/-- A Go string: an immutable sequence of bytes. -/
abbrev GoString := List UInt8

/-- The bytes of a string literal (its UTF-8 encoding, as in a Go source file). -/
def goString (s : String) : GoString := s.toList.flatMap String.utf8EncodeChar

/-- The one-byte separator `":"` used by `splitFileID` and `joinFileID`. -/
def colon : UInt8 := 58

/-- Panics of the Go run time that the embedded code can raise. -/
inductive GoPanic where
  /-- index `index` used on a slice of length `length` -/
  | indexOutOfRange (index length : Nat)
  /-- field access through a nil pointer -/
  | nilDereference
  deriving DecidableEq, Repr

/-- Kind of a `*strconv.NumError`. -/
inductive NumErrorKind where
  | syntaxError
  | rangeError
  deriving DecidableEq, Repr

/-- Numeric value of an `api` error code. -/
abbrev ErrorCode := Nat

/-- The struct `api.AppError`, of which the sources read the field `Code`. -/
structure AppError where
  Code : ErrorCode
  Message : GoString
  deriving DecidableEq, Repr

/-- A non-nil value of the Go interface type `error`, by dynamic type.  An
`error` that may be nil is an `Option GoError`. -/
inductive GoError where
  /-- dynamic type `api.AppError` -/
  | app (e : AppError)
  /-- the sentinel `sql.ErrNoRows` -/
  | sqlErrNoRows
  /-- a `*strconv.NumError` from function `fn` on input `num` -/
  | numError (fn : String) (num : GoString) (kind : NumErrorKind)
  /-- any other error, identified by a label -/
  | other (label : String)
  deriving DecidableEq, Repr

/-- How a Go call ends: normal return, a returned non-nil error, or a panic. -/
inductive Outcome (α : Type) where
  | ok (a : α)
  | err (e : GoError)
  | panic (p : GoPanic)
  deriving DecidableEq, Repr

namespace Outcome

/-- Sequencing: an error or a panic of the first call ends the whole call. -/
def bind {α β : Type} (x : Outcome α) (f : α → Outcome β) : Outcome β :=
  match x with
  | ok a => f a
  | err e => err e
  | panic p => panic p

instance : Monad Outcome where
  pure := Outcome.ok
  bind := Outcome.bind

end Outcome

/-- Slice indexing `xs[i]` with Go's bounds check. -/
def index {α : Type} (xs : List α) (i : Nat) : Outcome α :=
  match xs.get? i with
  | some x => Outcome.ok x
  | none => Outcome.panic (GoPanic.indexOutOfRange i xs.length)

/-- Go `strings.IndexByte`: position of the first byte equal to `c`. -/
def indexByte : GoString → UInt8 → Option Nat
  | [], _ => none
  | b :: rest, c => if b = c then some 0 else (indexByte rest c).map (· + 1)

/-- Go `strings.Count` for a one-byte separator. -/
def countByte : GoString → UInt8 → Nat
  | [], _ => 0
  | b :: rest, c => (if b = c then 1 else 0) + countByte rest c

/-- The loop of Go `strings.genSplit` (with `sepSave = 0`, one-byte separator):
at most `n` cuts, each at the first separator of what is left. -/
def genSplitLoop (sep : UInt8) : Nat → GoString → List GoString
  | 0, s => [s]
  | n + 1, s =>
    match indexByte s sep with
    | none => [s]
    | some m => s.take m :: genSplitLoop sep n (s.drop (m + 1))

/-- Go `strings.Split(s, sep)` for a one-byte separator, the only way the
sources call it: `n = Count(s, sep) + 1`, capped at `len(s) + 1`, then the loop
runs for `n - 1` cuts. -/
def stringsSplit (s : GoString) (sep : UInt8) : List GoString :=
  let n := min (countByte s sep + 1) (s.length + 1)
  genSplitLoop sep (n - 1) s

/-- Go `strings.Join(elems, sep)`. -/
def stringsJoin (elems : List GoString) (sep : GoString) : GoString :=
  match elems with
  | [] => []
  | [e] => e
  | e :: rest => rest.foldl (fun b s => b ++ sep ++ s) e

/-! ## The file-id codec -/

/-- Source `splitFileID`: `tokens := strings.Split(fileID, ":")`, then
`return tokens[0], tokens[1]`. -/
def splitFileID (fileID : GoString) : Outcome (GoString × GoString) := do
  let tokens := stringsSplit fileID colon
  let prefix0 ← index tokens 0
  let inode ← index tokens 1
  return (prefix0, inode)

/-- Source `joinFileID`: `strings.Join([]string{prefix, inode}, ":")`. -/
def joinFileID (prefix0 inode : GoString) : GoString :=
  stringsJoin [prefix0, inode] [colon]

/-! ## Package `api`: caller context and status mapping -/

/-- The struct `api.User`, of which the sources read the field `AccountId`. -/
structure User where
  AccountId : GoString
  deriving DecidableEq, Repr

/-- A context key.  Package `api` declares `type key int` with `userKey = 0`
and `tokenKey = 1`; keys of any other package have another type and never
equal one of these. -/
inductive CtxKey where
  | apiKey (k : Int)
  | foreign (pkg : String) (k : Int)
  deriving DecidableEq, Repr

/-- A value stored in a context, by dynamic type. -/
inductive CtxValue where
  /-- a `*User`; `none` is the nil pointer -/
  | userPtr (u : Option User)
  /-- a `string` -/
  | str (s : GoString)
  /-- a value of any other type -/
  | otherValue (label : String)
  deriving DecidableEq, Repr

/-- A `context.Context`, as the chain of its `WithValue` entries, innermost
(most recent) first.  Deadlines and cancellation play no role in the sources. -/
abbrev Context := List (CtxKey × CtxValue)

def userKey : CtxKey := CtxKey.apiKey 0

def tokenKey : CtxKey := CtxKey.apiKey 1

/-- Go `ctx.Value(key)`: the value of the innermost entry with that key, or
nil (`none`) when there is none. -/
def Context.Value : Context → CtxKey → Option CtxValue
  | [], _ => none
  | (k, v) :: parent, key => if k = key then some v else Context.Value parent key

/-- Go `context.WithValue(ctx, key, val)`. -/
def Context.WithValue (ctx : Context) (key : CtxKey) (val : CtxValue) : Context :=
  (key, val) :: ctx

/-- Source `ContextGetUser`: `u, ok := ctx.Value(userKey).(*User)`.  The
assertion succeeds exactly when the stored value has dynamic type `*User`. -/
def ContextGetUser (ctx : Context) : Option User × Bool :=
  match ctx.Value userKey with
  | some (CtxValue.userPtr u) => (u, true)
  | _ => (none, false)

/-- Source `ContextSetUser`. -/
def ContextSetUser (ctx : Context) (u : Option User) : Context :=
  ctx.WithValue userKey (CtxValue.userPtr u)

/-- Source `ContextGetAccessToken`: `t, ok := ctx.Value(tokenKey).(string)`. -/
def ContextGetAccessToken (ctx : Context) : GoString × Bool :=
  match ctx.Value tokenKey with
  | some (CtxValue.str t) => (t, true)
  | _ => ([], false)

/-- Source `ContextSetAccessToken`. -/
def ContextSetAccessToken (ctx : Context) (token : GoString) : Context :=
  ctx.WithValue tokenKey (CtxValue.str token)

/-- Declarations of package `api` that `api.go` and the share manager use and
that are declared in other files of the package: the error-code constants and
the constructor `NewError`. -/
structure ApiDecls where
  StorageNotFoundErrorCode : ErrorCode
  StorageAlreadyExistsErrorCode : ErrorCode
  StorageNotSupportedErrorCode : ErrorCode
  StoragePermissionDeniedErrorCode : ErrorCode
  TokenInvalidErrorCode : ErrorCode
  UserNotFoundErrorCode : ErrorCode
  PathInvalidError : ErrorCode
  ContextUserRequiredError : ErrorCode
  PublicLinkInvalidExpireDateErrorCode : ErrorCode
  PublicLinkNotFoundErrorCode : ErrorCode
  FolderShareNotFoundErrorCode : ErrorCode
  /-- The constructor `NewError(code)`: it returns an `AppError`, the type
  that `GetStatus` asserts; as a struct value it is never the nil error. -/
  NewError : ErrorCode → AppError

/-- The ten codes that the `switch` of `GetStatus` handles, in source order. -/
def ApiDecls.handledCodes (api : ApiDecls) : List ErrorCode :=
  [api.StorageNotFoundErrorCode, api.StorageAlreadyExistsErrorCode,
   api.StorageNotSupportedErrorCode, api.StoragePermissionDeniedErrorCode,
   api.TokenInvalidErrorCode, api.UserNotFoundErrorCode, api.PathInvalidError,
   api.ContextUserRequiredError, api.PublicLinkInvalidExpireDateErrorCode,
   api.PublicLinkNotFoundErrorCode]

/-- The generated enumeration `api.StatusCode`, with the members that
`GetStatus` returns (`StatusCode_OK` is `StatusCode.OK`, and so on). -/
inductive StatusCode where
  | OK
  | UNKNOWN
  | STORAGE_NOT_FOUND
  | STORAGE_ALREADY_EXISTS
  | STORAGE_NOT_SUPPORTED
  | STORAGE_PERMISSIONDENIED
  | TOKEN_INVALID
  | USER_NOT_FOUND
  | PATH_INVALID
  | CONTEXT_USER_REQUIRED
  | PUBLIC_LINK_INVALID_DATE
  | PUBLIC_LINK_NOT_FOUND
  deriving DecidableEq, Repr

/-- Source `GetStatus`.  The `switch` tries its cases from top to bottom. -/
def GetStatus (api : ApiDecls) (err : Option GoError) : StatusCode :=
  match err with
  | none => StatusCode.OK
  | some err =>
    match err with
    | GoError.app appError =>
      if appError.Code = api.StorageNotFoundErrorCode then StatusCode.STORAGE_NOT_FOUND
      else if appError.Code = api.StorageAlreadyExistsErrorCode then
        StatusCode.STORAGE_ALREADY_EXISTS
      else if appError.Code = api.StorageNotSupportedErrorCode then
        StatusCode.STORAGE_NOT_SUPPORTED
      else if appError.Code = api.StoragePermissionDeniedErrorCode then
        StatusCode.STORAGE_PERMISSIONDENIED
      else if appError.Code = api.TokenInvalidErrorCode then StatusCode.TOKEN_INVALID
      else if appError.Code = api.UserNotFoundErrorCode then StatusCode.USER_NOT_FOUND
      else if appError.Code = api.PathInvalidError then StatusCode.PATH_INVALID
      else if appError.Code = api.ContextUserRequiredError then
        StatusCode.CONTEXT_USER_REQUIRED
      else if appError.Code = api.PublicLinkInvalidExpireDateErrorCode then
        StatusCode.PUBLIC_LINK_INVALID_DATE
      else if appError.Code = api.PublicLinkNotFoundErrorCode then
        StatusCode.PUBLIC_LINK_NOT_FOUND
      else StatusCode.UNKNOWN
    | _ => StatusCode.UNKNOWN

/-! ## Library functions used by the share manager -/

/-- Dereference of a pointer: a nil pointer panics. -/
def deref {α : Type} (p : Option α) : Outcome α :=
  match p with
  | some a => Outcome.ok a
  | none => Outcome.panic GoPanic.nilDereference

/-- Value of a decimal digit byte `'0'..'9'`. -/
def digitValue (c : UInt8) : Option Nat :=
  if 48 ≤ c.toNat ∧ c.toNat ≤ 57 then some (c.toNat - 48) else none

/-- The digit loop of Go `strconv.ParseUint(s, 10, 64)`: a byte that is not a
decimal digit is a syntax error; leaving the range of `uint64` is a range
error (`cutoff = maxUint64/10 + 1`). -/
def parseUintLoop : GoString → Nat → Except NumErrorKind Nat
  | [], n => Except.ok n
  | c :: rest, n =>
    match digitValue c with
    | none => Except.error NumErrorKind.syntaxError
    | some d =>
      if n ≥ (2 ^ 64 - 1) / 10 + 1 then Except.error NumErrorKind.rangeError
      else if n * 10 + d > 2 ^ 64 - 1 then Except.error NumErrorKind.rangeError
      else parseUintLoop rest (n * 10 + d)

/-- Go `strconv.ParseUint(s, 10, 64)`. -/
def ParseUint (s : GoString) : Outcome Nat :=
  if s = [] then Outcome.err (GoError.numError "ParseUint" s NumErrorKind.syntaxError)
  else
    match parseUintLoop s 0 with
    | Except.ok n => Outcome.ok n
    | Except.error k => Outcome.err (GoError.numError "ParseUint" s k)

/-- Go `strconv.ParseInt(s, 10, 64)`: an optional sign, then `ParseUint`, then
the range check against `cutoff = 1 << 63`. -/
def ParseInt (s : GoString) : Outcome Int :=
  match s with
  | [] => Outcome.err (GoError.numError "ParseInt" s NumErrorKind.syntaxError)
  | c :: rest =>
    let neg := c == 45
    let digits := if c == 43 ∨ c == 45 then rest else s
    if digits = [] then Outcome.err (GoError.numError "ParseInt" s NumErrorKind.syntaxError)
    else
      match parseUintLoop digits 0 with
      | Except.error NumErrorKind.syntaxError =>
        Outcome.err (GoError.numError "ParseInt" s NumErrorKind.syntaxError)
      | Except.error NumErrorKind.rangeError =>
        Outcome.err (GoError.numError "ParseInt" s NumErrorKind.rangeError)
      | Except.ok un =>
        if !neg ∧ un ≥ 2 ^ 63 then
          Outcome.err (GoError.numError "ParseInt" s NumErrorKind.rangeError)
        else if neg ∧ un > 2 ^ 63 then
          Outcome.err (GoError.numError "ParseInt" s NumErrorKind.rangeError)
        else Outcome.ok (if neg then -(un : Int) else (un : Int))

/-- Decimal digits of a natural number, as bytes. -/
def natDecimal (n : Nat) : GoString :=
  (Nat.toDigits 10 n).map (fun c => c.toNat.toUInt8)

/-- Go `fmt.Sprintf("%d", i)` for an integer: its decimal rendering, with a
leading `-` when negative. -/
def sprintfD (i : Int) : GoString :=
  if i < 0 then 45 :: natDecimal i.natAbs else natDecimal i.natAbs

/-! ## The world outside the repository -/

/-- An argument bound to a `?` of an SQL statement. -/
inductive SqlValue where
  | int (i : Int)
  | uint (n : Nat)
  | str (s : GoString)
  deriving DecidableEq, Repr

/-- A call that leaves the process: to the virtual storage or to the database. -/
inductive Event where
  | vfsGetMetadata (path : GoString)
  | dbPrepare (stmt : GoString)
  | dbExec (stmt : GoString) (args : List SqlValue)
  | dbQueryRow (query : GoString) (args : List SqlValue)
  | dbQuery (query : GoString) (args : List SqlValue)
  deriving DecidableEq, Repr

/-- The struct `api.Metadata`, of which the sources read `Id` and `IsDir`. -/
structure Metadata where
  Id : GoString
  IsDir : Bool
  deriving DecidableEq, Repr

/-- A `sql.Result`: what `LastInsertId()` and `RowsAffected()` return. -/
structure ExecResult where
  LastInsertId : Except GoError Int
  RowsAffected : Except GoError Int

/-- The six columns that `getDBShare` scans from its row. -/
structure ShareColumns where
  shareWith : GoString
  prefix0 : GoString
  itemSource : GoString
  stime : Int
  permissions : Int
  shareType : Int
  deriving DecidableEq, Repr

/-- A `*sql.Rows` of the query of `getDBShares`: for each row that `Next()`
yields, what `Scan` gives (the id column and the six others, or an error),
and the final `rows.Err()`. -/
structure Rows where
  scans : List (Except GoError (Int × ShareColumns))
  Err : Option GoError

/-- The collaborators outside the repository, as functions of an external
state `σ`: the virtual storage, the SQL database, the clock. -/
structure Env (σ : Type) where
  vfsGetMetadata : σ → GoString → Except GoError Metadata × σ
  dbPrepare : σ → GoString → Except GoError Unit × σ
  dbExec : σ → GoString → List SqlValue → Except GoError ExecResult × σ
  dbQueryRowScan : σ → GoString → List SqlValue → Except GoError ShareColumns × σ
  dbQuery : σ → GoString → List SqlValue → Except GoError Rows × σ
  timeNowUnix : σ → Int × σ

/-- The result of running an operation: how it ended, the external state it
left, and the storage and database calls it issued, in order. -/
structure Run (σ α : Type) where
  out : Outcome α
  state : σ
  events : List Event

/-- An operation that may call the outside world. -/
def Op (σ α : Type) : Type := σ → Run σ α

namespace Op

/-- Sequencing: an error or a panic of the first part ends the operation;
this is the source's `if err != nil { return ..., err }` after a call. -/
def bind {σ α β : Type} (x : Op σ α) (f : α → Op σ β) : Op σ β := fun s =>
  let r := x s
  match r.out with
  | Outcome.ok a =>
    let r2 := f a r.state
    { out := r2.out, state := r2.state, events := r.events ++ r2.events }
  | Outcome.err e => { out := Outcome.err e, state := r.state, events := r.events }
  | Outcome.panic p => { out := Outcome.panic p, state := r.state, events := r.events }

instance {σ : Type} : Monad (Op σ) where
  pure := fun a s => { out := Outcome.ok a, state := s, events := [] }
  bind := Op.bind

/-- A computation inside the process: no call to the outside. -/
def lift {σ α : Type} (o : Outcome α) : Op σ α := fun s =>
  { out := o, state := s, events := [] }

/-- Return the error `e`. -/
def fail {σ α : Type} (e : GoError) : Op σ α := lift (Outcome.err e)

/-- One call to the outside world: it is recorded, and its `(value, err)`
result is handed to the caller to inspect. -/
def call {σ α : Type} (ev : Event) (f : σ → Except GoError α × σ) :
    Op σ (Except GoError α) := fun s =>
  { out := Outcome.ok (f s).1, state := (f s).2, events := [ev] }

/-- The check `if err != nil { return ..., err }` on a `(value, err)` pair. -/
def check {σ α : Type} (r : Except GoError α) : Op σ α :=
  match r with
  | Except.ok a => lift (Outcome.ok a)
  | Except.error e => fail e

end Op

/-! ## Package `share_manager_owncloud` -/

/-- The generated enumeration `api.ShareRecipient_RecipientType`, with the
members the sources name. -/
inductive RecipientType where
  | USER
  | GROUP
  deriving DecidableEq, Repr

/-- The struct `api.ShareRecipient`; `Type_` is its field `Type`. -/
structure ShareRecipient where
  Identity : GoString
  Type_ : RecipientType
  deriving DecidableEq, Repr

/-- The struct `api.FolderShare`, with the fields `convertToFolderShare` sets.
`Mtime` is a `uint64`; `Recipient` is a pointer (`none` is nil). -/
structure FolderShare where
  Id : GoString
  Mtime : Nat
  Path : GoString
  ReadOnly : Bool
  Recipient : Option ShareRecipient
  deriving DecidableEq, Repr

/-- Source struct `dbShare`; its `int` fields are Go `int`. -/
structure dbShare where
  ID : Int
  Prefix : GoString
  ItemSource : GoString
  ShareWith : GoString
  Permissions : Int
  ShareType : Int
  STime : Int
  deriving DecidableEq, Repr

/-- Source `getUserFromContext`.  The user it returns is a pointer. -/
def getUserFromContext (api : ApiDecls) (ctx : Context) : Outcome (Option User) :=
  let (u, ok) := ContextGetUser ctx
  if !ok then Outcome.err (GoError.app (api.NewError api.ContextUserRequiredError))
  else Outcome.ok u

/-- Source `convertToFolderShare`, on a non-nil `*dbShare` (its callers pass
the row that `getDBShare` or `getDBShares` has just built).  Its last statement
is `return share, nil`. -/
def convertToFolderShare (dbShare : dbShare) : Outcome FolderShare :=
  let recipientType :=
    if dbShare.ShareType = 0 then RecipientType.USER else RecipientType.GROUP
  let path := joinFileID dbShare.Prefix dbShare.ItemSource
  let share : FolderShare :=
    { Id := sprintfD dbShare.ID
      Mtime := (dbShare.STime % 2 ^ 64).toNat
      Path := path
      ReadOnly := decide (dbShare.Permissions = 1)
      Recipient := some { Identity := dbShare.ShareWith, Type_ := recipientType } }
  Outcome.ok share

/-- The query of `getDBShare`. -/
def getDBShareQuery : GoString :=
  goString "select coalesce(share_with, '') as share_with, coalesce(fileid_prefix, '') as fileid_prefix, coalesce(item_source, '') as item_source, stime, permissions, share_type from oc_share where uid_owner=? and id=?"

/-- Source `getDBShare`. -/
def getDBShare {σ : Type} (api : ApiDecls) (env : Env σ) (accountID id : GoString) :
    Op σ dbShare := do
  let intID ← Op.lift (ParseInt id)
  let query := getDBShareQuery
  let args := [SqlValue.str accountID, SqlValue.str id]
  match ← Op.call (Event.dbQueryRow query args) (fun s => env.dbQueryRowScan s query args) with
  | Except.error err =>
    if err = GoError.sqlErrNoRows then
      Op.fail (GoError.app (api.NewError api.FolderShareNotFoundErrorCode))
    else Op.fail err
  | Except.ok c =>
    return { ID := intID, Prefix := c.prefix0, ItemSource := c.itemSource,
             ShareWith := c.shareWith, STime := c.stime, Permissions := c.permissions,
             ShareType := c.shareType }

/-- The query of `getDBShares`. -/
def getDBSharesQuery : GoString :=
  goString "select id, coalesce(share_with, '') as share_with, coalesce(fileid_prefix, '') as fileid_prefix, coalesce(item_source, '') as item_source, stime, permissions, share_type from oc_share where uid_owner=? and (share_type=? or share_type=?) "

/-- The loop `for rows.Next()` of `getDBShares`: a failed `Scan` returns its
error; otherwise the row is appended. -/
def scanLoop : List (Except GoError (Int × ShareColumns)) → List dbShare →
    Except GoError (List dbShare)
  | [], dbShares => Except.ok dbShares
  | Except.error err :: _, _ => Except.error err
  | Except.ok (id, c) :: rest, dbShares =>
    scanLoop rest (dbShares ++ [{ ID := id, Prefix := c.prefix0, ItemSource := c.itemSource,
                                  ShareWith := c.shareWith, STime := c.stime,
                                  Permissions := c.permissions, ShareType := c.shareType }])

/-- Source `getDBShares`. -/
def getDBShares {σ : Type} (env : Env σ) (accountID : GoString) : Op σ (List dbShare) := do
  let query := getDBSharesQuery
  let args := [SqlValue.str accountID, SqlValue.int 0, SqlValue.int 1]
  let rows ← Op.check (← Op.call (Event.dbQuery query args) (fun s => env.dbQuery s query args))
  let dbShares ← Op.check (scanLoop rows.scans [])
  match rows.Err with
  | some err => Op.fail err
  | none => return dbShares

/-- The loop of `ListFolderShares`: a row whose conversion returns an error is
logged and skipped (`continue`); the others are appended in order. -/
def listLoop : List dbShare → List FolderShare → Outcome (List FolderShare)
  | [], shares => Outcome.ok shares
  | dbShare :: rest, shares =>
    match convertToFolderShare dbShare with
    | Outcome.ok share => listLoop rest (shares ++ [share])
    | Outcome.err _ => listLoop rest shares
    | Outcome.panic p => Outcome.panic p

/-- Source `shareManager.ListFolderShares`. -/
def ListFolderShares {σ : Type} (api : ApiDecls) (env : Env σ) (ctx : Context) :
    Op σ (List FolderShare) := do
  let u ← Op.lift (getUserFromContext api ctx)
  let accountId := (← Op.lift (deref u)).AccountId
  let dbShares ← getDBShares env accountId
  Op.lift (listLoop dbShares [])

/-- Source `shareManager.GetFolderShare`. -/
def GetFolderShare {σ : Type} (api : ApiDecls) (env : Env σ) (ctx : Context)
    (id : GoString) : Op σ FolderShare := do
  let u ← Op.lift (getUserFromContext api ctx)
  let accountId := (← Op.lift (deref u)).AccountId
  let dbShare ← getDBShare api env accountId id
  let share ← Op.lift (convertToFolderShare dbShare)
  return share

/-- The entries of the map `stmtPairs` of `UpdateFolderShare`; it has at most
one key, so ranging over it has one order. -/
def updateStmtPairs (updateReadOnly readOnly : Bool) : List (GoString × SqlValue) :=
  if updateReadOnly then
    if readOnly then [(goString "permissions", SqlValue.int 1)]
    else [(goString "permissions", SqlValue.int 15)]
  else []

/-- The text that `UpdateFolderShare` builds in `stmtString` when the map holds
the key `permissions`. -/
def updatePermissionsStmt : GoString :=
  goString "update oc_share set permissions=? where uid_owner=? and id=?"

/-- Source `shareManager.UpdateFolderShare`. -/
def UpdateFolderShare {σ : Type} (api : ApiDecls) (env : Env σ) (ctx : Context)
    (id : GoString) (updateReadOnly readOnly : Bool) : Op σ FolderShare := do
  let u ← Op.lift (getUserFromContext api ctx)
  let share ← GetFolderShare api env ctx id
  let stmtString := goString "update oc_share set "
  let stmtPairs := updateStmtPairs updateReadOnly readOnly
  if stmtPairs.length = 0 then
    return share
  else
    let stmtTail := stmtPairs.map (fun kv => kv.1 ++ goString "=?")
    let stmtValues := stmtPairs.map (fun kv => kv.2)
    let stmtString := stmtString ++ stringsJoin stmtTail (goString ",") ++
      goString " where uid_owner=? and id=?"
    let accountId := (← Op.lift (deref u)).AccountId
    let stmtValues := stmtValues ++ [SqlValue.str accountId, SqlValue.str id]
    Op.check (← Op.call (Event.dbPrepare stmtString) (fun s => env.dbPrepare s stmtString))
    let _ ← Op.check (← Op.call (Event.dbExec stmtString stmtValues)
      (fun s => env.dbExec s stmtString stmtValues))
    let share ← GetFolderShare api env ctx id
    return share

/-- The statement of `Unshare`. -/
def unshareStmt : GoString := goString "delete from oc_share where uid_owner=? and id=?"

/-- Source `shareManager.Unshare`. -/
def Unshare {σ : Type} (api : ApiDecls) (env : Env σ) (ctx : Context) (id : GoString) :
    Op σ Unit := do
  let u ← Op.lift (getUserFromContext api ctx)
  Op.check (← Op.call (Event.dbPrepare unshareStmt) (fun s => env.dbPrepare s unshareStmt))
  let accountId := (← Op.lift (deref u)).AccountId
  let args := [SqlValue.str accountId, SqlValue.str id]
  let res ← Op.check (← Op.call (Event.dbExec unshareStmt args)
    (fun s => env.dbExec s unshareStmt args))
  let rowCnt ← Op.check res.RowsAffected
  if rowCnt = 0 then
    Op.fail (GoError.app (api.NewError api.PublicLinkNotFoundErrorCode))
  else
    return ()

/-- The statement of `AddFolderShare`. -/
def addFolderShareStmt : GoString :=
  goString "insert into oc_share set share_type=?,uid_owner=?,uid_initiator=?,item_type=?,fileid_prefix=?,item_source=?,file_source=?,permissions=?,stime=?,share_with=?"

/-- Source `shareManager.AddFolderShare`; `recipient` is a pointer. -/
def AddFolderShare {σ : Type} (api : ApiDecls) (env : Env σ) (ctx : Context)
    (path : GoString) (recipient : Option ShareRecipient) (readOnly : Bool) :
    Op σ FolderShare := do
  let u ← Op.lift (getUserFromContext api ctx)
  let md ← Op.check (← Op.call (Event.vfsGetMetadata path) (fun s => env.vfsGetMetadata s path))
  let itemType := if md.IsDir then goString "folder" else goString "file"
  let permissions : Int := if readOnly then 1 else 15
  let (prefix0, itemSource) ← Op.lift (splitFileID md.Id)
  let fileSource ← Op.lift (ParseUint itemSource)
  let recipientType := (← Op.lift (deref recipient)).Type_
  let shareType : Int := if recipientType = RecipientType.GROUP then 1 else 0
  let stmtString := addFolderShareStmt
  let accountId := (← Op.lift (deref u)).AccountId
  let now ← fun s => { out := Outcome.ok (env.timeNowUnix s).1, state := (env.timeNowUnix s).2,
                        events := [] }
  let identity := (← Op.lift (deref recipient)).Identity
  let stmtValues :=
    [SqlValue.int shareType, SqlValue.str accountId, SqlValue.str accountId,
     SqlValue.str itemType, SqlValue.str prefix0, SqlValue.str itemSource,
     SqlValue.uint fileSource, SqlValue.int permissions, SqlValue.int now,
     SqlValue.str identity]
  Op.check (← Op.call (Event.dbPrepare stmtString) (fun s => env.dbPrepare s stmtString))
  let result ← Op.check (← Op.call (Event.dbExec stmtString stmtValues)
    (fun s => env.dbExec s stmtString stmtValues))
  let lastId ← Op.check result.LastInsertId
  let share ← GetFolderShare api env ctx (sprintfD lastId)
  return share

/-! ## A concrete instance of the parameters

An in-memory table `oc_share`, one file in the storage and a counter for a
clock: a world on which the operations can be run. -/

/-- A choice of distinct error codes, and `NewError` building the `AppError`
with that code and no message. -/
def sampleApi : ApiDecls where
  StorageNotFoundErrorCode := 1
  StorageAlreadyExistsErrorCode := 2
  StorageNotSupportedErrorCode := 3
  StoragePermissionDeniedErrorCode := 4
  TokenInvalidErrorCode := 5
  UserNotFoundErrorCode := 6
  PathInvalidError := 7
  ContextUserRequiredError := 8
  PublicLinkInvalidExpireDateErrorCode := 9
  PublicLinkNotFoundErrorCode := 10
  FolderShareNotFoundErrorCode := 11
  NewError := fun code => { Code := code, Message := [] }

/-- State of the in-memory world: the rows of `oc_share` with their owner,
the next auto-increment id, and the clock. -/
structure MemState where
  shares : List (GoString × dbShare)
  nextId : Int
  clock : Int
  deriving DecidableEq, Repr

/-- Columns of a stored row, in the order `getDBShare` scans them. -/
def columnsOf (row : dbShare) : ShareColumns :=
  { shareWith := row.ShareWith, prefix0 := row.Prefix, itemSource := row.ItemSource,
    stime := row.STime, permissions := row.Permissions, shareType := row.ShareType }

/-- The in-memory world.  Statements are told apart by the shape of their
arguments: ten for the insert, `(permissions, owner, id)` for the update,
`(owner, id)` for the delete. -/
def memEnv : Env MemState where
  vfsGetMetadata := fun s path =>
    if path = goString "/home/docs" then
      (Except.ok { Id := goString "home:1234", IsDir := true }, s)
    else (Except.error (GoError.other "not found"), s)
  dbPrepare := fun s _ => (Except.ok (), s)
  dbExec := fun s _ args =>
    match args with
    | [SqlValue.int shareType, SqlValue.str owner, _, _, SqlValue.str pfx,
        SqlValue.str itemSource, _, SqlValue.int permissions, SqlValue.int stime,
        SqlValue.str shareWith] =>
      let row : dbShare :=
        { ID := s.nextId, Prefix := pfx, ItemSource := itemSource, ShareWith := shareWith,
          Permissions := permissions, ShareType := shareType, STime := stime }
      (Except.ok { LastInsertId := Except.ok s.nextId, RowsAffected := Except.ok 1 },
       { s with shares := s.shares ++ [(owner, row)], nextId := s.nextId + 1 })
    | [SqlValue.int permissions, SqlValue.str owner, SqlValue.str id] =>
      let hit := fun (r : GoString × dbShare) => r.1 = owner ∧ sprintfD r.2.ID = id
      (Except.ok { LastInsertId := Except.ok 0,
                   RowsAffected := Except.ok ((s.shares.filter hit).length : Int) },
       { s with shares := s.shares.map (fun r =>
           if hit r then (r.1, { r.2 with Permissions := permissions }) else r) })
    | [SqlValue.str owner, SqlValue.str id] =>
      let hit := fun (r : GoString × dbShare) => r.1 = owner ∧ sprintfD r.2.ID = id
      (Except.ok { LastInsertId := Except.ok 0,
                   RowsAffected := Except.ok ((s.shares.filter hit).length : Int) },
       { s with shares := s.shares.filter (fun r => ¬ hit r) })
    | _ => (Except.error (GoError.other "unknown statement"), s)
  dbQueryRowScan := fun s _ args =>
    match args with
    | [SqlValue.str owner, SqlValue.str id] =>
      match s.shares.find? (fun r => r.1 = owner ∧ sprintfD r.2.ID = id) with
      | some r => (Except.ok (columnsOf r.2), s)
      | none => (Except.error GoError.sqlErrNoRows, s)
    | _ => (Except.error (GoError.other "unknown query"), s)
  dbQuery := fun s _ args =>
    match args with
    | [SqlValue.str owner, SqlValue.int t0, SqlValue.int t1] =>
      let mine := s.shares.filter
        (fun r => r.1 = owner ∧ (r.2.ShareType = t0 ∨ r.2.ShareType = t1))
      (Except.ok { scans := mine.map (fun r => Except.ok (r.2.ID, columnsOf r.2)),
                   Err := none }, s)
    | _ => (Except.error (GoError.other "unknown query"), s)
  timeNowUnix := fun s => (s.clock, { s with clock := s.clock + 1 })

/-- The empty in-memory world. -/
def memInit : MemState := { shares := [], nextId := 1, clock := 1500000000 }

/-- A user. -/
def alice : User := { AccountId := goString "alice" }

/-- A context that carries the user `alice`. -/
def aliceCtx : Context := ContextSetUser [] (some alice)

/-- A recipient of type user. -/
def bob : ShareRecipient := { Identity := goString "bob", Type_ := RecipientType.USER }

/-- The rows of `alice` in `memTwo`: a read-only share with the user `bob` and
a read-write share with the group `staff`. -/
def aliceRows : List dbShare :=
  [{ ID := 1, Prefix := goString "home", ItemSource := goString "1234",
     ShareWith := goString "bob", Permissions := 1, ShareType := 0, STime := 1500000000 },
   { ID := 3, Prefix := goString "home", ItemSource := goString "77",
     ShareWith := goString "staff", Permissions := 15, ShareType := 1, STime := 1500000002 }]

/-- An in-memory world with three shares, two of them owned by `alice`. -/
def memTwo : MemState :=
  { shares :=
      [(goString "alice",
        { ID := 1, Prefix := goString "home", ItemSource := goString "1234",
          ShareWith := goString "bob", Permissions := 1, ShareType := 0,
          STime := 1500000000 }),
       (goString "carol",
        { ID := 2, Prefix := goString "home", ItemSource := goString "9",
          ShareWith := goString "alice", Permissions := 15, ShareType := 0,
          STime := 1500000001 }),
       (goString "alice",
        { ID := 3, Prefix := goString "home", ItemSource := goString "77",
          ShareWith := goString "staff", Permissions := 15, ShareType := 1,
          STime := 1500000002 })]
    nextId := 4
    clock := 1500000003 }

/-! ## Lemmas on the `strings` functions -/

theorem indexByte_of_not_mem {s : GoString} {c : UInt8} (h : c ∉ s) :
    indexByte s c = none := by
  induction s with
  | nil => rfl
  | cons b rest ih =>
    have hb : b ≠ c := fun e => h (by simp [e])
    have hr : c ∉ rest := fun m => h (List.mem_cons_of_mem _ m)
    simp [indexByte, hb, ih hr]

theorem countByte_of_not_mem {s : GoString} {c : UInt8} (h : c ∉ s) :
    countByte s c = 0 := by
  induction s with
  | nil => rfl
  | cons b rest ih =>
    have hb : b ≠ c := fun e => h (by simp [e])
    have hr : c ∉ rest := fun m => h (List.mem_cons_of_mem _ m)
    simp [countByte, hb, ih hr]

theorem indexByte_append_sep {p : GoString} {c : UInt8} (r : GoString) (h : c ∉ p) :
    indexByte (p ++ c :: r) c = some p.length := by
  induction p with
  | nil => simp [indexByte]
  | cons b rest ih =>
    have hb : b ≠ c := fun e => h (by simp [e])
    have hr : c ∉ rest := fun m => h (List.mem_cons_of_mem _ m)
    simp [indexByte, hb, ih hr]

theorem countByte_append_sep {p : GoString} {c : UInt8} (r : GoString) (h : c ∉ p) :
    countByte (p ++ c :: r) c = countByte r c + 1 := by
  induction p with
  | nil => simp [countByte]; omega
  | cons b rest ih =>
    have hb : b ≠ c := fun e => h (by simp [e])
    have hr : c ∉ rest := fun m => h (List.mem_cons_of_mem _ m)
    simp [countByte, hb, ih hr]

theorem countByte_le_length (s : GoString) (c : UInt8) : countByte s c ≤ s.length := by
  induction s with
  | nil => simp [countByte]
  | cons b rest ih =>
    simp only [countByte, List.length_cons]
    split <;> omega

theorem countByte_pos_of_mem {s : GoString} {c : UInt8} (h : c ∈ s) :
    0 < countByte s c := by
  induction s with
  | nil => simp at h
  | cons b rest ih =>
    by_cases hb : b = c
    · simp [countByte, hb]
    · have hr : c ∈ rest := by
        rcases List.mem_cons.mp h with e | m
        · exact absurd e.symm hb
        · exact m
      have := ih hr
      simp [countByte, hb, this]

/-- A string that contains the separator splits at its first occurrence. -/
theorem exists_first_sep {s : GoString} {c : UInt8} (h : c ∈ s) :
    ∃ p r, s = p ++ c :: r ∧ c ∉ p := by
  induction s with
  | nil => simp at h
  | cons b rest ih =>
    by_cases hb : b = c
    · exact ⟨[], rest, by simp [hb], by simp⟩
    · have hr : c ∈ rest := by
        rcases List.mem_cons.mp h with e | m
        · exact absurd e.symm hb
        · exact m
      obtain ⟨p, r, hs, hp⟩ := ih hr
      refine ⟨b :: p, r, by simp [hs], ?_⟩
      intro m
      rcases List.mem_cons.mp m with e | m
      · exact hb e.symm
      · exact hp m

theorem stringsSplit_eq (s : GoString) (c : UInt8) :
    stringsSplit s c = genSplitLoop c (countByte s c) s := by
  have h := countByte_le_length s c
  simp only [stringsSplit]
  rw [Nat.min_eq_left (by omega)]
  rfl

/-- Without a separator, `strings.Split` returns the string as its only token. -/
theorem stringsSplit_of_not_mem {s : GoString} {c : UInt8} (h : c ∉ s) :
    stringsSplit s c = [s] := by
  rw [stringsSplit_eq, countByte_of_not_mem h]
  rfl

/-- The first token is what stands before the first separator, and the rest
of the tokens are those of what follows it. -/
theorem stringsSplit_append_sep {p : GoString} {c : UInt8} (r : GoString) (h : c ∉ p) :
    stringsSplit (p ++ c :: r) c = p :: stringsSplit r c := by
  rw [stringsSplit_eq, stringsSplit_eq, countByte_append_sep r h]
  simp [genSplitLoop, indexByte_append_sep r h]

theorem joinFileID_eq (p l : GoString) : joinFileID p l = p ++ colon :: l := by
  simp [joinFileID, stringsJoin]

theorem splitFileID_of_not_mem {s : GoString} (h : colon ∉ s) :
    splitFileID s = Outcome.panic (GoPanic.indexOutOfRange 1 1) := by
  show Outcome.bind _ _ = _
  rw [stringsSplit_of_not_mem h]
  rfl

theorem splitFileID_one_sep {p l : GoString} (hp : colon ∉ p) (hl : colon ∉ l) :
    splitFileID (p ++ colon :: l) = Outcome.ok (p, l) := by
  show Outcome.bind _ _ = _
  rw [stringsSplit_append_sep l hp, stringsSplit_of_not_mem hl]
  rfl

theorem splitFileID_more_sep {p l : GoString} (r : GoString) (hp : colon ∉ p)
    (hl : colon ∉ l) :
    splitFileID (p ++ colon :: (l ++ colon :: r)) = Outcome.ok (p, l) := by
  show Outcome.bind _ _ = _
  rw [stringsSplit_append_sep _ hp, stringsSplit_append_sep r hl]
  rfl

theorem takeWhile_ne_of_not_mem {s : GoString} {c : UInt8} (h : c ∉ s) :
    s.takeWhile (fun b => b != c) = s := by
  induction s with
  | nil => rfl
  | cons b rest ih =>
    have hb : b ≠ c := fun e => h (by simp [e])
    have hr : c ∉ rest := fun m => h (List.mem_cons_of_mem _ m)
    have hb2 : (b != c) = true := by simp [hb]
    simp [List.takeWhile, hb2, ih hr]

theorem takeWhile_ne_append_sep {p : GoString} {c : UInt8} (r : GoString) (h : c ∉ p) :
    (p ++ c :: r).takeWhile (fun b => b != c) = p := by
  induction p with
  | nil => simp [List.takeWhile]
  | cons b rest ih =>
    have hb : b ≠ c := fun e => h (by simp [e])
    have hr : c ∉ rest := fun m => h (List.mem_cons_of_mem _ m)
    have hb2 : (b != c) = true := by simp [hb]
    simp [List.takeWhile, hb2, ih hr]

theorem not_mem_of_countByte_eq_zero {s : GoString} {c : UInt8} (h : countByte s c = 0) :
    c ∉ s := by
  intro m
  have := countByte_pos_of_mem m
  omega

/-- A string with exactly one separator is a separator-free prefix, the
separator, and a separator-free rest. -/
theorem exists_parts_of_countByte_eq_one {s : GoString} {c : UInt8}
    (h : countByte s c = 1) :
    ∃ p l, s = p ++ c :: l ∧ c ∉ p ∧ c ∉ l := by
  have hm : c ∈ s := by
    by_contra hn
    have := countByte_of_not_mem hn
    omega
  obtain ⟨p, r, hs, hp⟩ := exists_first_sep hm
  refine ⟨p, r, hs, hp, ?_⟩
  rw [hs, countByte_append_sep r hp] at h
  exact not_mem_of_countByte_eq_zero (by omega)

/-! ## Lemmas on operations and the calls they issue -/

theorem countByte_append (a b : GoString) (c : UInt8) :
    countByte (a ++ b) c = countByte a c + countByte b c := by
  induction a with
  | nil => simp [countByte]
  | cons x rest ih => simp [countByte, ih]; omega

theorem Op.mem_events_bind {σ α β : Type} (x : Op σ α) (f : α → Op σ β) (s : σ) (ev : Event) :
    ev ∈ ((x >>= f) s).events ↔
      ev ∈ (x s).events ∨ ∃ a, (x s).out = Outcome.ok a ∧ ev ∈ (f a (x s).state).events := by
  show ev ∈ (Op.bind x f s).events ↔ _
  unfold Op.bind
  cases h : (x s).out <;> simp [h]

theorem Op.out_bind_ok {σ α β : Type} (x : Op σ α) (f : α → Op σ β) (s : σ) (b : β) :
    ((x >>= f) s).out = Outcome.ok b ↔
      ∃ a, (x s).out = Outcome.ok a ∧ (f a (x s).state).out = Outcome.ok b := by
  show (Op.bind x f s).out = _ ↔ _
  unfold Op.bind
  cases h : (x s).out <;> simp [h]

@[simp] theorem Op.events_lift {σ α : Type} (o : Outcome α) (s : σ) :
    (Op.lift o s).events = [] := rfl

@[simp] theorem Op.events_pure {σ α : Type} (a : α) (s : σ) :
    ((pure a : Op σ α) s).events = [] := rfl

@[simp] theorem Op.events_fail {σ α : Type} (e : GoError) (s : σ) :
    ((Op.fail e : Op σ α) s).events = [] := rfl

@[simp] theorem Op.events_check {σ α : Type} (r : Except GoError α) (s : σ) :
    (Op.check r s).events = [] := by
  cases r <;> rfl

@[simp] theorem Op.events_call {σ α : Type} (ev : Event) (f : σ → Except GoError α × σ)
    (s : σ) : (Op.call ev f s).events = [ev] := rfl

theorem Op.lift_ok_bind {σ α β : Type} (a : α) (f : α → Op σ β) (s : σ) :
    ((Op.lift (Outcome.ok a) : Op σ α) >>= f) s = f a s := by
  show Op.bind _ f s = _
  simp [Op.bind, Op.lift]

theorem Op.bind_lift_of_ok {σ α β : Type} (x : Op σ α) (g : α → Outcome β) (s s2 : σ)
    (a : α) (evs : List Event)
    (h : x s = { out := Outcome.ok a, state := s2, events := evs }) :
    (x >>= fun v => Op.lift (g v)) s = { out := g a, state := s2, events := evs } := by
  show Op.bind x _ s = _
  simp [Op.bind, Op.lift, h]

theorem getUserFromContext_of_no_user (api : ApiDecls) (ctx : Context)
    (h : (ContextGetUser ctx).2 = false) :
    getUserFromContext api ctx =
      Outcome.err (GoError.app (api.NewError api.ContextUserRequiredError)) := by
  unfold getUserFromContext
  simp [h]

theorem getUserFromContext_of_user (api : ApiDecls) (ctx : Context) (u : Option User)
    (h : ContextGetUser ctx = (u, true)) :
    getUserFromContext api ctx = Outcome.ok u := by
  unfold getUserFromContext
  simp [h]

/-- The only call that `getDBShare` issues is its row query. -/
theorem getDBShare_events {σ : Type} (api : ApiDecls) (env : Env σ) (a id : GoString) (s : σ)
    (ev : Event) (h : ev ∈ (getDBShare api env a id s).events) :
    ∃ q args, ev = Event.dbQueryRow q args := by
  unfold getDBShare at h
  simp only [Op.mem_events_bind, Op.events_lift, Op.events_call, List.not_mem_nil, false_or,
    List.mem_singleton] at h
  obtain ⟨_, _, h | ⟨r, _, h⟩⟩ := h
  · exact ⟨_, _, h⟩
  · split at h
    · split at h <;> simp at h
    · simp at h

theorem GetFolderShare_events {σ : Type} (api : ApiDecls) (env : Env σ) (ctx : Context)
    (id : GoString) (s : σ) (ev : Event) (h : ev ∈ (GetFolderShare api env ctx id s).events) :
    ∃ q args, ev = Event.dbQueryRow q args := by
  unfold GetFolderShare at h
  simp only [Op.mem_events_bind, Op.events_lift, Op.events_pure, List.not_mem_nil, false_or,
    or_false, and_false, exists_false, exists_const] at h
  obtain ⟨_, _, _, _, h⟩ := h
  exact getDBShare_events _ _ _ _ _ _ h

/-- Reading a share executes no statement. -/
theorem GetFolderShare_no_exec {σ : Type} (api : ApiDecls) (env : Env σ) (ctx : Context)
    (id : GoString) (s : σ) (stmt : GoString) (args : List SqlValue) :
    Event.dbExec stmt args ∉ (GetFolderShare api env ctx id s).events := by
  intro h
  obtain ⟨_, _, e⟩ := GetFolderShare_events _ _ _ _ _ _ h
  cases e

/-- The statement that `AddFolderShare` executes is the insert, and the
argument bound to its eighth `?` (`permissions=?`) is 1 or 15. -/
theorem AddFolderShare_exec {σ : Type} (api : ApiDecls) (env : Env σ) (ctx : Context)
    (path : GoString) (recipient : Option ShareRecipient) (readOnly : Bool) (s : σ)
    (stmt : GoString) (args : List SqlValue)
    (h : Event.dbExec stmt args ∈
      (AddFolderShare api env ctx path recipient readOnly s).events) :
    stmt = addFolderShareStmt ∧
      args.get? 7 = some (SqlValue.int (if readOnly then 1 else 15)) := by
  unfold AddFolderShare at h
  simp only [Op.mem_events_bind, Op.events_lift, Op.events_pure, Op.events_call,
    Op.events_check, List.not_mem_nil, false_or, or_false, and_false, exists_false,
    exists_const, List.mem_singleton, GetFolderShare_no_exec, Prod.exists, reduceCtorEq] at h
  obtain ⟨_, _, _, _, _, _, _, _, _, _, _, _, _, _, _, _, _, _, _, _, _, _, _, h⟩ := h
  injection h with h1 h2
  subst h1 h2
  exact ⟨rfl, rfl⟩

/-- When `UpdateFolderShare` executes a statement, `updateReadOnly` is set, the
statement is the update of `permissions`, and the argument bound to its first
`?` is 1 or 15. -/
theorem UpdateFolderShare_exec {σ : Type} (api : ApiDecls) (env : Env σ) (ctx : Context)
    (id : GoString) (updateReadOnly readOnly : Bool) (s : σ)
    (stmt : GoString) (args : List SqlValue)
    (h : Event.dbExec stmt args ∈
      (UpdateFolderShare api env ctx id updateReadOnly readOnly s).events) :
    updateReadOnly = true ∧ stmt = updatePermissionsStmt ∧
      args.get? 0 = some (SqlValue.int (if readOnly then 1 else 15)) := by
  unfold UpdateFolderShare at h
  simp only [Op.mem_events_bind, Op.events_lift, List.not_mem_nil, false_or,
    GetFolderShare_no_exec] at h
  obtain ⟨_, _, _, _, h⟩ := h
  cases updateReadOnly with
  | false => simp [updateStmtPairs] at h
  | true =>
    cases readOnly <;>
    · simp only [updateStmtPairs, Op.mem_events_bind, Op.events_lift, Op.events_pure,
        Op.events_call, Op.events_check, List.not_mem_nil, false_or, or_false, and_false,
        exists_false, exists_const, List.mem_singleton, GetFolderShare_no_exec,
        reduceCtorEq, List.length_singleton, one_ne_zero, if_false, ↓reduceIte,
        List.map_cons, List.map_nil] at h
      obtain ⟨_, _, _, _, _, _, h⟩ := h
      injection h with h1 h2
      subst h1 h2
      exact ⟨rfl, by decide, rfl⟩

/-- The statement text that `UpdateFolderShare` assembles. -/
theorem updateStmt_built :
    goString "update oc_share set " ++
        stringsJoin [goString "permissions" ++ goString "=?"] (goString ",") ++
      goString " where uid_owner=? and id=?" = updatePermissionsStmt := by
  decide

/-- What `convertToFolderShare` returns for a row. -/
theorem convertToFolderShare_eq (row : dbShare) :
    convertToFolderShare row = Outcome.ok
      { Id := sprintfD row.ID
        Mtime := (row.STime % 2 ^ 64).toNat
        Path := joinFileID row.Prefix row.ItemSource
        ReadOnly := decide (row.Permissions = 1)
        Recipient := some
          { Identity := row.ShareWith
            Type_ := if row.ShareType = 0 then RecipientType.USER else RecipientType.GROUP } } :=
  rfl

/-- The loop of `ListFolderShares` appends one share per row, in order. -/
theorem listLoop_spec (rows : List dbShare) (acc : List FolderShare) :
    ∃ shares, listLoop rows acc = Outcome.ok (acc ++ shares) ∧
      List.Forall₂ (fun row share => convertToFolderShare row = Outcome.ok share) rows shares := by
  induction rows generalizing acc with
  | nil => exact ⟨[], by simp [listLoop], List.Forall₂.nil⟩
  | cons row rest ih =>
    obtain ⟨share, hc⟩ : ∃ share, convertToFolderShare row = Outcome.ok share :=
      ⟨_, convertToFolderShare_eq row⟩
    obtain ⟨shares, h1, h2⟩ := ih (acc ++ [share])
    refine ⟨share :: shares, ?_, List.Forall₂.cons hc h2⟩
    rw [listLoop, hc]
    simp [h1]

theorem forall₂_get? {α β : Type} {R : α → β → Prop} {l1 : List α} {l2 : List β}
    (h : List.Forall₂ R l1 l2) (i : Nat) (a : α) (ha : l1.get? i = some a) :
    ∃ b, l2.get? i = some b ∧ R a b := by
  induction h generalizing i with
  | nil => simp at ha
  | cons hab _ ih =>
    cases i with
    | zero =>
      simp only [List.get?_cons_zero, Option.some.injEq] at ha
      subst ha
      exact ⟨_, rfl, hab⟩
    | succ n =>
      simp only [List.get?_cons_succ] at ha
      exact ih n ha

/-! ## Successful runs, in terms of the calls to the outside world -/

theorem Op.bind_def {σ α β : Type} (x : Op σ α) (f : α → Op σ β) :
    (x >>= f) = Op.bind x f := rfl

theorem Op.pure_def {σ α : Type} (a : α) (s : σ) :
    (pure a : Op σ α) s = { out := Outcome.ok a, state := s, events := [] } := rfl

@[simp] theorem Op.out_lift {σ α : Type} (o : Outcome α) (s : σ) :
    (Op.lift o s : Run σ α).out = o := rfl

@[simp] theorem Op.state_lift {σ α : Type} (o : Outcome α) (s : σ) :
    (Op.lift o s : Run σ α).state = s := rfl

@[simp] theorem Op.out_call {σ α : Type} (ev : Event) (f : σ → Except GoError α × σ) (s : σ) :
    (Op.call ev f s).out = Outcome.ok (f s).1 := rfl

@[simp] theorem Op.state_call {σ α : Type} (ev : Event) (f : σ → Except GoError α × σ)
    (s : σ) : (Op.call ev f s).state = (f s).2 := rfl

@[simp] theorem Op.state_check {σ α : Type} (r : Except GoError α) (s : σ) :
    (Op.check r s).state = s := by
  cases r <;> rfl

theorem Op.out_check_ok {σ α : Type} (r : Except GoError α) (s : σ) (a : α) :
    (Op.check r s).out = Outcome.ok a ↔ r = Except.ok a := by
  cases r <;> simp [Op.check, Op.lift, Op.fail]

theorem getUserFromContext_ok (api : ApiDecls) (ctx : Context) (a : Option User)
    (h : getUserFromContext api ctx = Outcome.ok a) : ContextGetUser ctx = (a, true) := by
  unfold getUserFromContext at h
  rcases hc : ContextGetUser ctx with ⟨u, ok⟩
  rw [hc] at h
  cases ok <;> simp at h
  rw [h]

theorem deref_ok {α : Type} (p : Option α) (a : α) (h : deref p = Outcome.ok a) :
    p = some a := by
  cases p <;> simp [deref] at h
  rw [h]

/-- A call of `GetFolderShare` that returns a share has read it from the row
that the database returns for the user and the id, in the state it was run. -/
theorem GetFolderShare_ok {σ : Type} (api : ApiDecls) (env : Env σ) (ctx : Context)
    (id : GoString) (s : σ) (share : FolderShare)
    (h : (GetFolderShare api env ctx id s).out = Outcome.ok share) :
    ∃ (u : User) (n : Int) (cols : ShareColumns),
      ContextGetUser ctx = (some u, true) ∧ ParseInt id = Outcome.ok n ∧
      (env.dbQueryRowScan s getDBShareQuery [SqlValue.str u.AccountId, SqlValue.str id]).1 =
        Except.ok cols ∧
      share.ReadOnly = decide (cols.permissions = 1) ∧
      GetFolderShare api env ctx id s =
        { out := Outcome.ok share
          state := (env.dbQueryRowScan s getDBShareQuery
            [SqlValue.str u.AccountId, SqlValue.str id]).2
          events := [Event.dbQueryRow getDBShareQuery
            [SqlValue.str u.AccountId, SqlValue.str id]] } := by
  have h0 := h
  unfold GetFolderShare getDBShare at h
  simp only [Op.out_bind_ok, Op.out_lift, Op.state_lift, Op.out_call, Op.state_call,
    Outcome.ok.injEq] at h
  obtain ⟨a, ha, u, hu, row, ⟨n, hn, r, hr, hrow⟩, sh, hsh, hp⟩ := h
  have hctx := getUserFromContext_ok api ctx a ha
  have hau := deref_ok a u hu
  subst hau
  subst hr
  change Outcome.ok sh = Outcome.ok share at hp
  injection hp with hp
  subst hp
  rcases hq : (env.dbQueryRowScan s getDBShareQuery
      [SqlValue.str u.AccountId, SqlValue.str id]).1 with err | cols
  · rw [hq] at hrow
    simp only at hrow
    split at hrow <;> cases hrow
  · rw [hq] at hrow
    change Outcome.ok _ = Outcome.ok row at hrow
    injection hrow with hrow
    subst hrow
    rw [convertToFolderShare_eq] at hsh
    injection hsh with hsh
    subst hsh
    refine ⟨u, n, cols, hctx, hn, hq, rfl, ?_⟩
    unfold GetFolderShare getDBShare
    simp [Op.bind_def, Op.bind, Op.lift, Op.call, Op.pure_def, ha, deref, hn, hq,
      convertToFolderShare_eq]

/-- A call of `AddFolderShare` that returns a share has run the insert on the
database, with `permissions` bound to 1 or 15, and returns the share that the
database holds in the state the insert left. -/
theorem AddFolderShare_ok {σ : Type} (api : ApiDecls) (env : Env σ) (ctx : Context)
    (path : GoString) (recipient : Option ShareRecipient) (readOnly : Bool) (s : σ)
    (share : FolderShare)
    (h : (AddFolderShare api env ctx path recipient readOnly s).out = Outcome.ok share) :
    ∃ (u : User) (r : ShareRecipient) (md : Metadata) (pfx item : GoString) (fileSource : Nat)
      (now lastId : Int) (result : ExecResult) (cols : ShareColumns) (s1 s2 s3 s4 s5 : σ),
      ContextGetUser ctx = (some u, true) ∧ recipient = some r ∧
      env.vfsGetMetadata s path = (Except.ok md, s1) ∧
      splitFileID md.Id = Outcome.ok (pfx, item) ∧ ParseUint item = Outcome.ok fileSource ∧
      env.timeNowUnix s1 = (now, s2) ∧
      env.dbPrepare s2 addFolderShareStmt = (Except.ok (), s3) ∧
      env.dbExec s3 addFolderShareStmt
        [SqlValue.int (if r.Type_ = RecipientType.GROUP then 1 else 0),
         SqlValue.str u.AccountId, SqlValue.str u.AccountId,
         SqlValue.str (if md.IsDir then goString "folder" else goString "file"),
         SqlValue.str pfx, SqlValue.str item, SqlValue.uint fileSource,
         SqlValue.int (if readOnly then 1 else 15), SqlValue.int now,
         SqlValue.str r.Identity] = (Except.ok result, s4) ∧
      result.LastInsertId = Except.ok lastId ∧
      env.dbQueryRowScan s4 getDBShareQuery
        [SqlValue.str u.AccountId, SqlValue.str (sprintfD lastId)] = (Except.ok cols, s5) ∧
      share.ReadOnly = decide (cols.permissions = 1) ∧
      (cols.permissions = (if readOnly then 1 else 15) → share.ReadOnly = readOnly) ∧
      AddFolderShare api env ctx path recipient readOnly s =
        { out := Outcome.ok share
          state := s5
          events :=
            [Event.vfsGetMetadata path, Event.dbPrepare addFolderShareStmt,
             Event.dbExec addFolderShareStmt
              [SqlValue.int (if r.Type_ = RecipientType.GROUP then 1 else 0),
               SqlValue.str u.AccountId, SqlValue.str u.AccountId,
               SqlValue.str (if md.IsDir then goString "folder" else goString "file"),
               SqlValue.str pfx, SqlValue.str item, SqlValue.uint fileSource,
               SqlValue.int (if readOnly then 1 else 15), SqlValue.int now,
               SqlValue.str r.Identity],
             Event.dbQueryRow getDBShareQuery
              [SqlValue.str u.AccountId, SqlValue.str (sprintfD lastId)]] } := by
  have h0 := h
  unfold AddFolderShare at h
  simp only [Op.out_bind_ok, Op.out_lift, Op.state_lift, Op.out_call, Op.state_call,
    Op.state_check, Op.out_check_ok, Outcome.ok.injEq, Prod.exists] at h
  obtain ⟨a, ha, _, rfl, md, hmd, pfx, item, hsp, fileSource, hfs, r, hr, u, hu, _, rfl, r2, hr2,
    _, rfl, _, hprep, _, rfl, result, hres, lastId, hlast, sh, hget, hp⟩ := h
  change Outcome.ok sh = Outcome.ok share at hp
  injection hp with hp
  subst hp
  have hctx := getUserFromContext_ok api ctx a ha
  have hau := deref_ok a u hu
  subst hau
  have hrec := deref_ok recipient r hr
  subst hrec
  have hr3 := deref_ok (some r) r2 hr2
  injection hr3 with hr3
  subst hr3
  obtain ⟨u2, n, cols, hctx2, hn, hq, hro, hrun⟩ := GetFolderShare_ok api env ctx _ _ sh hget
  have hu2 : u2 = u := by
    rw [hctx] at hctx2
    injection hctx2 with h1 _
    injection h1 with h1
    exact h1.symm
  subst hu2
  refine ⟨u2, r, md, pfx, item, fileSource, _, lastId, result, cols, _, _, _, _, _, hctx, rfl,
    Prod.ext hmd rfl, hsp, hfs, rfl, Prod.ext hprep rfl, Prod.ext hres rfl, hlast,
    Prod.ext hq rfl, hro, fun hc => by rw [hro, hc]; cases readOnly <;> simp, ?_⟩
  unfold AddFolderShare
  simp [Op.bind_def, Op.bind, Op.lift, Op.call, Op.check, Op.pure_def, ha, deref, hmd, hsp, hfs,
    hprep, hres, hlast, hrun]

/-- A call of `UpdateFolderShare` with `updateReadOnly` set that returns a share
has run the update on the database, with `permissions` bound to 1 or 15, and
returns the share that the database holds in the state the update left. -/
theorem UpdateFolderShare_ok {σ : Type} (api : ApiDecls) (env : Env σ) (ctx : Context)
    (id : GoString) (readOnly : Bool) (s : σ) (share : FolderShare)
    (h : (UpdateFolderShare api env ctx id true readOnly s).out = Outcome.ok share) :
    ∃ (u : User) (before cols : ShareColumns) (result : ExecResult) (s1 s2 s3 s4 : σ),
      ContextGetUser ctx = (some u, true) ∧
      env.dbQueryRowScan s getDBShareQuery [SqlValue.str u.AccountId, SqlValue.str id] =
        (Except.ok before, s1) ∧
      env.dbPrepare s1 updatePermissionsStmt = (Except.ok (), s2) ∧
      env.dbExec s2 updatePermissionsStmt
        [SqlValue.int (if readOnly then 1 else 15), SqlValue.str u.AccountId,
         SqlValue.str id] = (Except.ok result, s3) ∧
      env.dbQueryRowScan s3 getDBShareQuery [SqlValue.str u.AccountId, SqlValue.str id] =
        (Except.ok cols, s4) ∧
      share.ReadOnly = decide (cols.permissions = 1) ∧
      (cols.permissions = (if readOnly then 1 else 15) → share.ReadOnly = readOnly) ∧
      UpdateFolderShare api env ctx id true readOnly s =
        { out := Outcome.ok share
          state := s4
          events :=
            [Event.dbQueryRow getDBShareQuery [SqlValue.str u.AccountId, SqlValue.str id],
             Event.dbPrepare updatePermissionsStmt,
             Event.dbExec updatePermissionsStmt
              [SqlValue.int (if readOnly then 1 else 15), SqlValue.str u.AccountId,
               SqlValue.str id],
             Event.dbQueryRow getDBShareQuery [SqlValue.str u.AccountId, SqlValue.str id]] } := by
  have hlen : (updateStmtPairs true readOnly).length ≠ 0 := by
    cases readOnly <;> simp [updateStmtPairs]
  have htail : (updateStmtPairs true readOnly).map (fun kv => kv.1 ++ goString "=?") =
      [goString "permissions" ++ goString "=?"] := by
    cases readOnly <;> simp [updateStmtPairs]
  have hvals : (updateStmtPairs true readOnly).map (fun kv => kv.2) =
      [SqlValue.int (if readOnly then 1 else 15)] := by
    cases readOnly <;> simp [updateStmtPairs]
  unfold UpdateFolderShare at h
  simp only [hlen, htail, hvals, if_false, updateStmt_built, Op.out_bind_ok, Op.out_lift,
    Op.state_lift, Op.out_call, Op.state_call, Op.state_check, Op.out_check_ok,
    Outcome.ok.injEq, List.singleton_append] at h
  obtain ⟨a, ha, sh0, hget0, u, hu, _, rfl, _, hprep, _, rfl, result, hres, sh, hget, hp⟩ := h
  change Outcome.ok sh = Outcome.ok share at hp
  injection hp with hp
  subst hp
  have hctx := getUserFromContext_ok api ctx a ha
  have hau := deref_ok a u hu
  subst hau
  obtain ⟨u0, _, before, hctx0, _, hq0, _, hrun0⟩ := GetFolderShare_ok api env ctx _ _ sh0 hget0
  have hu0 : u0 = u := by
    rw [hctx] at hctx0
    injection hctx0 with h1 _
    injection h1 with h1
    exact h1.symm
  subst hu0
  have hst : (GetFolderShare api env ctx id s).state =
      (env.dbQueryRowScan s getDBShareQuery [SqlValue.str u0.AccountId, SqlValue.str id]).2 := by
    rw [hrun0]
  rw [hst] at hprep hres hget
  obtain ⟨u1, _, cols, hctx1, _, hq, hro, hrun⟩ := GetFolderShare_ok api env ctx _ _ sh hget
  have hu1 : u1 = u0 := by
    rw [hctx] at hctx1
    injection hctx1 with h1 _
    injection h1 with h1
    exact h1.symm
  subst hu1
  refine ⟨u1, before, cols, result, _, _, _, _, hctx, Prod.ext hq0 rfl, Prod.ext hprep rfl,
    Prod.ext hres rfl, Prod.ext hq rfl, hro,
    fun hc => by rw [hro, hc]; cases readOnly <;> simp, ?_⟩
  unfold UpdateFolderShare
  simp only [hlen, htail, hvals, if_false, updateStmt_built, List.singleton_append]
  simp [Op.bind_def, Op.bind, Op.lift, Op.call, Op.check, Op.pure_def, ha, deref, hrun0, hprep,
    hres, hrun]

theorem Op.bind_pure_run {σ α : Type} (x : Op σ α) (s : σ) :
    (x >>= fun a => pure a) s = x s := by
  show Op.bind x _ s = x s
  unfold Op.bind
  rcases hx : x s with ⟨o, st, ev⟩
  cases o <;> simp [Op.pure_def]

/-- Without `updateReadOnly`, `UpdateFolderShare` is `GetFolderShare`: it
executes nothing and returns the share as the database holds it. -/
theorem UpdateFolderShare_without_flag {σ : Type} (api : ApiDecls) (env : Env σ)
    (ctx : Context) (id : GoString) (readOnly : Bool) (s : σ) :
    UpdateFolderShare api env ctx id false readOnly s = GetFolderShare api env ctx id s := by
  unfold UpdateFolderShare
  simp only [updateStmtPairs, Bool.false_eq_true, if_false, List.length_nil, if_true]
  rcases hu : getUserFromContext api ctx with a | e | p
  · rw [Op.lift_ok_bind, Op.bind_pure_run]
  · unfold GetFolderShare
    rw [hu]
    rfl
  · unfold GetFolderShare
    rw [hu]
    rfl
/-! ## The file-id codec: properties -/

/-- C1. Identifier round trip: when neither the prefix nor the local id
contains the separator `:`, `splitFileID (joinFileID prefix localId)` returns
exactly the pair `(prefix, localId)`. -/
theorem splitFileID_joinFileID (p l : GoString) (hp : colon ∉ p) (hl : colon ∉ l) :
    splitFileID (joinFileID p l) = Outcome.ok (p, l) := by
  rw [joinFileID_eq]
  exact splitFileID_one_sep hp hl

/-- C1 on the prefix `home` and the local id `1234`. -/
theorem splitFileID_joinFileID_witness :
    colon ∉ goString "home" ∧ colon ∉ goString "1234" ∧
      splitFileID (joinFileID (goString "home") (goString "1234")) =
        Outcome.ok (goString "home", goString "1234") :=
  ⟨by decide, by decide,
    splitFileID_joinFileID (goString "home") (goString "1234") (by decide) (by decide)⟩

/-- C2, as stated, fails: on `"home1234"`, which has no separator,
`splitFileID` returns no error value at all (in particular no
`MalformedIdentifierError`); the call stops with the run-time panic
"index out of range [1] with length 1". -/
theorem splitFileID_no_separator_reports_no_error :
    colon ∉ goString "home1234" ∧
      (¬ ∃ e : GoError, splitFileID (goString "home1234") = Outcome.err e) ∧
      splitFileID (goString "home1234") = Outcome.panic (GoPanic.indexOutOfRange 1 1) := by
  refine ⟨by decide, ?_, by decide⟩
  rintro ⟨e, he⟩
  have h : splitFileID (goString "home1234") = Outcome.panic (GoPanic.indexOutOfRange 1 1) := by
    decide
  rw [h] at he
  cases he

/-- C2, amended. For every identifier string without the separator `:`,
`splitFileID` returns no `(prefix, localId)` pair, and it reports no error
value to its caller (the function has no error result). -/
theorem splitFileID_no_separator (s : GoString) (h : colon ∉ s) :
    (∀ pair : GoString × GoString, splitFileID s ≠ Outcome.ok pair) ∧
      (∀ e : GoError, splitFileID s ≠ Outcome.err e) := by
  rw [splitFileID_of_not_mem h]
  exact ⟨fun _ he => Outcome.noConfusion he, fun _ he => Outcome.noConfusion he⟩

/-- C2 (amended) on the identifier `1234`. -/
theorem splitFileID_no_separator_witness :
    colon ∉ goString "1234" ∧
      (∀ pair : GoString × GoString, splitFileID (goString "1234") ≠ Outcome.ok pair) ∧
      (∀ e : GoError, splitFileID (goString "1234") ≠ Outcome.err e) :=
  ⟨by decide, splitFileID_no_separator (goString "1234") (by decide)⟩

/-- C3, as stated, fails: on `":1234"`, whose separator position yields an
empty prefix, `splitFileID` does not fail; it returns the pair `("", "1234")`. -/
theorem splitFileID_empty_prefix_returns_pair :
    splitFileID (goString ":1234") = Outcome.ok ([], goString "1234") := by
  decide

/-- C3, amended. For every identifier string that begins with `:`,
`splitFileID` returns a pair: its prefix is the empty string and its local id
is the text between that `:` and the next `:` (or the end of the string). -/
theorem splitFileID_leading_separator (rest : GoString) :
    splitFileID (colon :: rest) =
      Outcome.ok ([], rest.takeWhile (fun b => b != colon)) := by
  by_cases hm : colon ∈ rest
  · obtain ⟨l, r, hs, hl⟩ := exists_first_sep hm
    have h := splitFileID_more_sep (p := []) r (by simp) hl
    rw [hs, takeWhile_ne_append_sep r hl]
    exact h
  · have h := splitFileID_one_sep (p := []) (by simp) hm
    rw [takeWhile_ne_of_not_mem hm]
    exact h

/-- C5, as stated, fails: `"a:b:c"` splits to `("a", "b")`, joining that pair
gives `"a:b"`, not the original, and the distinct strings `"a:b:c"` and `"a:b"`
split to the same pair. -/
theorem joinFileID_splitFileID_two_separators :
    splitFileID (goString "a:b:c") = Outcome.ok (goString "a", goString "b") ∧
      joinFileID (goString "a") (goString "b") ≠ goString "a:b:c" ∧
      goString "a:b:c" ≠ goString "a:b" ∧
      splitFileID (goString "a:b:c") = splitFileID (goString "a:b") := by
  decide

/-- C5, amended. For every identifier string with exactly one separator `:`,
`splitFileID` returns the pair of what stands before the separator and what
stands after it, `joinFileID` of that pair is the original string, and no other
string with exactly one separator splits to the same pair. -/
theorem joinFileID_splitFileID_one_separator (s t : GoString)
    (hs : countByte s colon = 1) (ht : countByte t colon = 1) :
    ∃ p l, splitFileID s = Outcome.ok (p, l) ∧ s = p ++ colon :: l ∧
      joinFileID p l = s ∧ (splitFileID t = splitFileID s → t = s) := by
  obtain ⟨p, l, es, hp, hl⟩ := exists_parts_of_countByte_eq_one hs
  obtain ⟨q, m, et, hq, hm⟩ := exists_parts_of_countByte_eq_one ht
  refine ⟨p, l, ?_, es, ?_, ?_⟩
  · rw [es]; exact splitFileID_one_sep hp hl
  · rw [joinFileID_eq, es]
  · intro h
    rw [es, et, splitFileID_one_sep hp hl, splitFileID_one_sep hq hm] at h
    injection h with h
    injection h with h1 h2
    rw [es, et, h1, h2]

/-- C5 (amended) on the identifiers `home:1234` and `eos:77`. -/
theorem joinFileID_splitFileID_one_separator_witness :
    countByte (goString "home:1234") colon = 1 ∧ countByte (goString "eos:77") colon = 1 ∧
      ∃ p l, splitFileID (goString "home:1234") = Outcome.ok (p, l) ∧
        goString "home:1234" = p ++ colon :: l ∧ joinFileID p l = goString "home:1234" ∧
        (splitFileID (goString "eos:77") = splitFileID (goString "home:1234") →
          goString "eos:77" = goString "home:1234") :=
  ⟨by decide, by decide,
    joinFileID_splitFileID_one_separator (goString "home:1234") (goString "eos:77")
      (by decide) (by decide)⟩

/-- C6. For every prefix and local id, empty ones included,
`joinFileID prefix localId` is the prefix, then one `:`, then the local id; its
length is `len(prefix) + 1 + len(localId)`. -/
theorem joinFileID_spec (p l : GoString) :
    joinFileID p l = p ++ [colon] ++ l ∧
      (joinFileID p l).length = p.length + 1 + l.length := by
  rw [joinFileID_eq]
  constructor
  · simp
  · simp; omega

/-! ## Status mapping -/

/-- C7. `GetStatus` is a function from error values to status codes: nil maps
to `OK`; an `AppError` whose code is one of the ten handled codes maps to the
status of the same name; an `AppError` with any other code, and any error that
is not an `AppError`, maps to `UNKNOWN`.  The ten constants are distinct, as
the Go compiler demands of the cases of one `switch`. -/
theorem GetStatus_mapping (api : ApiDecls) (hd : api.handledCodes.Nodup) :
    GetStatus api none = StatusCode.OK ∧
    (∀ m, GetStatus api (some (GoError.app ⟨api.StorageNotFoundErrorCode, m⟩)) =
      StatusCode.STORAGE_NOT_FOUND) ∧
    (∀ m, GetStatus api (some (GoError.app ⟨api.StorageAlreadyExistsErrorCode, m⟩)) =
      StatusCode.STORAGE_ALREADY_EXISTS) ∧
    (∀ m, GetStatus api (some (GoError.app ⟨api.StorageNotSupportedErrorCode, m⟩)) =
      StatusCode.STORAGE_NOT_SUPPORTED) ∧
    (∀ m, GetStatus api (some (GoError.app ⟨api.StoragePermissionDeniedErrorCode, m⟩)) =
      StatusCode.STORAGE_PERMISSIONDENIED) ∧
    (∀ m, GetStatus api (some (GoError.app ⟨api.TokenInvalidErrorCode, m⟩)) =
      StatusCode.TOKEN_INVALID) ∧
    (∀ m, GetStatus api (some (GoError.app ⟨api.UserNotFoundErrorCode, m⟩)) =
      StatusCode.USER_NOT_FOUND) ∧
    (∀ m, GetStatus api (some (GoError.app ⟨api.PathInvalidError, m⟩)) =
      StatusCode.PATH_INVALID) ∧
    (∀ m, GetStatus api (some (GoError.app ⟨api.ContextUserRequiredError, m⟩)) =
      StatusCode.CONTEXT_USER_REQUIRED) ∧
    (∀ m, GetStatus api (some (GoError.app ⟨api.PublicLinkInvalidExpireDateErrorCode, m⟩)) =
      StatusCode.PUBLIC_LINK_INVALID_DATE) ∧
    (∀ m, GetStatus api (some (GoError.app ⟨api.PublicLinkNotFoundErrorCode, m⟩)) =
      StatusCode.PUBLIC_LINK_NOT_FOUND) ∧
    (∀ e : AppError, e.Code ∉ api.handledCodes →
      GetStatus api (some (GoError.app e)) = StatusCode.UNKNOWN) ∧
    (∀ err : GoError, (∀ e : AppError, err ≠ GoError.app e) →
      GetStatus api (some err) = StatusCode.UNKNOWN) := by
  simp only [ApiDecls.handledCodes, List.nodup_cons, List.mem_cons, List.mem_singleton,
    not_or, List.not_mem_nil, not_false_eq_true, List.nodup_nil, and_true] at hd
  obtain ⟨h1, h2, h3, h4, h5, h6, h7, h8, h9⟩ := hd
  refine ⟨rfl, ?_, ?_, ?_, ?_, ?_, ?_, ?_, ?_, ?_, ?_, ?_, ?_⟩
  · intro m; simp [GetStatus]
  · intro m; simp [GetStatus, Ne.symm h1.1]
  · intro m; simp [GetStatus, Ne.symm h1.2.1, Ne.symm h2.1]
  · intro m; simp [GetStatus, Ne.symm h1.2.2.1, Ne.symm h2.2.1, Ne.symm h3.1]
  · intro m
    simp [GetStatus, Ne.symm h1.2.2.2.1, Ne.symm h2.2.2.1, Ne.symm h3.2.1, Ne.symm h4.1]
  · intro m
    simp [GetStatus, Ne.symm h1.2.2.2.2.1, Ne.symm h2.2.2.2.1, Ne.symm h3.2.2.1,
      Ne.symm h4.2.1, Ne.symm h5.1]
  · intro m
    simp [GetStatus, Ne.symm h1.2.2.2.2.2.1, Ne.symm h2.2.2.2.2.1, Ne.symm h3.2.2.2.1,
      Ne.symm h4.2.2.1, Ne.symm h5.2.1, Ne.symm h6.1]
  · intro m
    simp [GetStatus, Ne.symm h1.2.2.2.2.2.2.1, Ne.symm h2.2.2.2.2.2.1, Ne.symm h3.2.2.2.2.1,
      Ne.symm h4.2.2.2.1, Ne.symm h5.2.2.1, Ne.symm h6.2.1, Ne.symm h7.1]
  · intro m
    simp [GetStatus, Ne.symm h1.2.2.2.2.2.2.2.1, Ne.symm h2.2.2.2.2.2.2.1,
      Ne.symm h3.2.2.2.2.2.1, Ne.symm h4.2.2.2.2.1, Ne.symm h5.2.2.2.1, Ne.symm h6.2.2.1,
      Ne.symm h7.2.1, Ne.symm h8.1]
  · intro m
    simp [GetStatus, Ne.symm h1.2.2.2.2.2.2.2.2, Ne.symm h2.2.2.2.2.2.2.2,
      Ne.symm h3.2.2.2.2.2.2, Ne.symm h4.2.2.2.2.2, Ne.symm h5.2.2.2.2, Ne.symm h6.2.2.2,
      Ne.symm h7.2.2, Ne.symm h8.2, Ne.symm h9]
  · intro e he
    simp only [ApiDecls.handledCodes, List.mem_cons, List.mem_singleton, not_or,
      List.not_mem_nil, not_false_eq_true, and_true] at he
    obtain ⟨a1, a2, a3, a4, a5, a6, a7, a8, a9, a10⟩ := he
    simp [GetStatus, a1, a2, a3, a4, a5, a6, a7, a8, a9, a10]
  · intro err he
    cases err with
    | app e => exact absurd rfl (he e)
    | sqlErrNoRows => rfl
    | numError fn num kind => rfl
    | other label => rfl

/-- C7 on the sample codes: nil, a handled code, an unhandled code and an error
that is not an `AppError`. -/
theorem GetStatus_mapping_witness :
    sampleApi.handledCodes.Nodup ∧
      GetStatus sampleApi none = StatusCode.OK ∧
      GetStatus sampleApi (some (GoError.app ⟨8, goString "no user"⟩)) =
        StatusCode.CONTEXT_USER_REQUIRED ∧
      GetStatus sampleApi (some (GoError.app ⟨11, []⟩)) = StatusCode.UNKNOWN ∧
      GetStatus sampleApi (some GoError.sqlErrNoRows) = StatusCode.UNKNOWN :=
  ⟨by decide, (GetStatus_mapping sampleApi (by decide)).1,
    (GetStatus_mapping sampleApi (by decide)).2.2.2.2.2.2.2.2.1 (goString "no user"),
    (GetStatus_mapping sampleApi (by decide)).2.2.2.2.2.2.2.2.2.2.2.1 ⟨11, []⟩ (by decide),
    (GetStatus_mapping sampleApi (by decide)).2.2.2.2.2.2.2.2.2.2.2.2 GoError.sqlErrNoRows
      (fun _ h => GoError.noConfusion h)⟩

/-! ## Construction of identifiers -/

/-- C4, as stated, fails: for the prefix `"a:b"`, which contains the
separator, `joinFileID` produces the identifier `"a:b:c"`, and
`convertToFolderShare` builds that `Path` and returns no error. -/
theorem joinFileID_separator_in_prefix_produces_identifier :
    colon ∈ goString "a:b" ∧
      joinFileID (goString "a:b") (goString "c") = goString "a:b:c" ∧
      (convertToFolderShare
        { ID := 1, Prefix := goString "a:b", ItemSource := goString "c", ShareWith := [],
          Permissions := 1, ShareType := 0, STime := 0 }) =
        Outcome.ok { Id := goString "1", Mtime := 0, Path := goString "a:b:c", ReadOnly := true,
                     Recipient := some { Identity := [], Type_ := RecipientType.USER } } := by
  decide

/-- C4, amended. Constructing an identifier never fails: when the prefix or
the local id contains the separator `:`, `joinFileID` still returns the prefix,
one `:` and the local id, a string with at least two separators, and
`convertToFolderShare` returns a share with that `Path`. -/
theorem joinFileID_with_separator (p l : GoString) (h : colon ∈ p ∨ colon ∈ l) :
    joinFileID p l = p ++ colon :: l ∧ 2 ≤ countByte (joinFileID p l) colon ∧
      ∀ row : dbShare, row.Prefix = p → row.ItemSource = l →
        ∃ share, convertToFolderShare row = Outcome.ok share ∧
          share.Path = p ++ colon :: l := by
  refine ⟨joinFileID_eq p l, ?_, ?_⟩
  · rw [joinFileID_eq, countByte_append]
    have h1 : countByte (colon :: l) colon = 1 + countByte l colon := by simp [countByte]
    rcases h with h | h
    · have := countByte_pos_of_mem h
      omega
    · have := countByte_pos_of_mem h
      omega
  · intro row hp hl
    exact ⟨_, convertToFolderShare_eq row, by simp [joinFileID_eq, hp, hl]⟩

/-- C4 (amended) on the prefix `a:b` and the local id `c`. -/
theorem joinFileID_with_separator_witness :
    (colon ∈ goString "a:b" ∨ colon ∈ goString "c") ∧
      joinFileID (goString "a:b") (goString "c") = goString "a:b" ++ colon :: goString "c" ∧
      2 ≤ countByte (joinFileID (goString "a:b") (goString "c")) colon ∧
      ∀ row : dbShare, row.Prefix = goString "a:b" → row.ItemSource = goString "c" →
        ∃ share, convertToFolderShare row = Outcome.ok share ∧
          share.Path = goString "a:b" ++ colon :: goString "c" :=
  ⟨Or.inl (by decide),
    joinFileID_with_separator (goString "a:b") (goString "c") (Or.inl (by decide))⟩

/-! ## The share manager -/

/-- C8. `getUserFromContext` returns an error exactly when `ContextGetUser`
reports no user, and with such a context each of `ListFolderShares`,
`UpdateFolderShare`, `Unshare`, `GetFolderShare` and `AddFolderShare` returns
the error `NewError(ContextUserRequiredError)`, leaves the external state as it
was and has issued no call to the database or to the virtual storage. -/
theorem no_user_fails_before_any_call {σ : Type} (api : ApiDecls) (env : Env σ)
    (ctx : Context) (s : σ) :
    ((∃ e, getUserFromContext api ctx = Outcome.err e) ↔ (ContextGetUser ctx).2 = false) ∧
    ((ContextGetUser ctx).2 = false →
      ListFolderShares api env ctx s =
        { out := Outcome.err (GoError.app (api.NewError api.ContextUserRequiredError)),
          state := s, events := [] } ∧
      (∀ id updateReadOnly readOnly,
        UpdateFolderShare api env ctx id updateReadOnly readOnly s =
          { out := Outcome.err (GoError.app (api.NewError api.ContextUserRequiredError)),
            state := s, events := [] }) ∧
      (∀ id, Unshare api env ctx id s =
        { out := Outcome.err (GoError.app (api.NewError api.ContextUserRequiredError)),
          state := s, events := [] }) ∧
      (∀ id, GetFolderShare api env ctx id s =
        { out := Outcome.err (GoError.app (api.NewError api.ContextUserRequiredError)),
          state := s, events := [] }) ∧
      (∀ path recipient readOnly, AddFolderShare api env ctx path recipient readOnly s =
        { out := Outcome.err (GoError.app (api.NewError api.ContextUserRequiredError)),
          state := s, events := [] })) := by
  constructor
  · unfold getUserFromContext
    cases h : (ContextGetUser ctx).2 <;> simp [h]
  · intro h
    have hu := getUserFromContext_of_no_user api ctx h
    refine ⟨?_, ?_, ?_, ?_, ?_⟩
    · unfold ListFolderShares; rw [hu]; rfl
    · intro id a b; unfold UpdateFolderShare; rw [hu]; rfl
    · intro id; unfold Unshare; rw [hu]; rfl
    · intro id; unfold GetFolderShare; rw [hu]; rfl
    · intro p r b; unfold AddFolderShare; rw [hu]; rfl

/-- C8 on the empty context and the in-memory world. -/
theorem no_user_fails_before_any_call_witness :
    (ContextGetUser ([] : Context)).2 = false ∧
      (Unshare sampleApi memEnv [] (goString "1") memInit).out =
        Outcome.err (GoError.app { Code := 8, Message := [] }) ∧
      (Unshare sampleApi memEnv [] (goString "1") memInit).events = [] ∧
      (AddFolderShare sampleApi memEnv [] (goString "/home/docs") (some bob) true memInit).events
        = [] :=
  ⟨by decide,
    congrArg Run.out
      (((no_user_fails_before_any_call sampleApi memEnv [] memInit).2 (by decide)).2.2.1
        (goString "1")),
    congrArg Run.events
      (((no_user_fails_before_any_call sampleApi memEnv [] memInit).2 (by decide)).2.2.1
        (goString "1")),
    congrArg Run.events
      (((no_user_fails_before_any_call sampleApi memEnv [] memInit).2 (by decide)).2.2.2.2
        (goString "/home/docs") (some bob) true)⟩

/-- C9, as stated, fails: `UpdateFolderShare` called with `readOnly = false`
but without `updateReadOnly`, on a share stored with permissions 1, executes no
statement, leaves the table as it was and returns the share with
`ReadOnly = true`: it has stored neither 15 nor anything else, and the share is
not read back with `ReadOnly = false`. -/
theorem UpdateFolderShare_without_updateReadOnly_stores_nothing :
    UpdateFolderShare sampleApi memEnv aliceCtx (goString "1") false false memTwo =
      { out := Outcome.ok { Id := goString "1", Mtime := 1500000000,
                            Path := goString "home:1234", ReadOnly := true,
                            Recipient := some bob }
        state := memTwo
        events := [Event.dbQueryRow getDBShareQuery
          [SqlValue.str (goString "alice"), SqlValue.str (goString "1")]] } ∧
    (memTwo.shares.map (fun r => (r.2.ID, r.2.Permissions))) = [(1, 1), (2, 15), (3, 15)] := by
  constructor
  · rfl
  · decide

/-- C9, amended. The read-only flag round-trips through the stored permissions
value, for `AddFolderShare` and for `UpdateFolderShare` with `updateReadOnly`
set.  A call of either that returns a share has run its statement on the
database with `permissions` bound to 1 for `readOnly = true` and to 15 for
`readOnly = false`, and the share it returns is read from the state that
statement left; any statement they execute binds `permissions` so.  Without
`updateReadOnly`, `UpdateFolderShare` is `GetFolderShare`: it stores nothing.
`convertToFolderShare` sets `ReadOnly` to `permissions == 1`: when the database
returns the value written for `readOnly`, the share is read back with
`ReadOnly = readOnly`, and a row with any value other than 1 is read back as
not read-only. -/
theorem readOnly_permissions_roundtrip {σ : Type} (api : ApiDecls) (env : Env σ)
    (ctx : Context) (s : σ) (readOnly : Bool) :
    (∀ path recipient share,
      (AddFolderShare api env ctx path recipient readOnly s).out = Outcome.ok share →
      ∃ (u : User) (r : ShareRecipient) (md : Metadata) (pfx item : GoString)
        (fileSource : Nat) (now lastId : Int) (result : ExecResult) (cols : ShareColumns)
        (s1 s2 s3 s4 s5 : σ),
        ContextGetUser ctx = (some u, true) ∧ recipient = some r ∧
        env.vfsGetMetadata s path = (Except.ok md, s1) ∧
        splitFileID md.Id = Outcome.ok (pfx, item) ∧ ParseUint item = Outcome.ok fileSource ∧
        env.timeNowUnix s1 = (now, s2) ∧
        env.dbPrepare s2 addFolderShareStmt = (Except.ok (), s3) ∧
        env.dbExec s3 addFolderShareStmt
          [SqlValue.int (if r.Type_ = RecipientType.GROUP then 1 else 0),
           SqlValue.str u.AccountId, SqlValue.str u.AccountId,
           SqlValue.str (if md.IsDir then goString "folder" else goString "file"),
           SqlValue.str pfx, SqlValue.str item, SqlValue.uint fileSource,
           SqlValue.int (if readOnly then 1 else 15), SqlValue.int now,
           SqlValue.str r.Identity] = (Except.ok result, s4) ∧
        result.LastInsertId = Except.ok lastId ∧
        env.dbQueryRowScan s4 getDBShareQuery
          [SqlValue.str u.AccountId, SqlValue.str (sprintfD lastId)] = (Except.ok cols, s5) ∧
        share.ReadOnly = decide (cols.permissions = 1) ∧
        (cols.permissions = (if readOnly then 1 else 15) → share.ReadOnly = readOnly) ∧
        AddFolderShare api env ctx path recipient readOnly s =
          { out := Outcome.ok share
            state := s5
            events :=
              [Event.vfsGetMetadata path, Event.dbPrepare addFolderShareStmt,
               Event.dbExec addFolderShareStmt
                [SqlValue.int (if r.Type_ = RecipientType.GROUP then 1 else 0),
                 SqlValue.str u.AccountId, SqlValue.str u.AccountId,
                 SqlValue.str (if md.IsDir then goString "folder" else goString "file"),
                 SqlValue.str pfx, SqlValue.str item, SqlValue.uint fileSource,
                 SqlValue.int (if readOnly then 1 else 15), SqlValue.int now,
                 SqlValue.str r.Identity],
               Event.dbQueryRow getDBShareQuery
                [SqlValue.str u.AccountId, SqlValue.str (sprintfD lastId)]] }) ∧
    (∀ path recipient stmt args,
      Event.dbExec stmt args ∈ (AddFolderShare api env ctx path recipient readOnly s).events →
        stmt = addFolderShareStmt ∧
        args.get? 7 = some (SqlValue.int (if readOnly then 1 else 15))) ∧
    (∀ id share,
      (UpdateFolderShare api env ctx id true readOnly s).out = Outcome.ok share →
      ∃ (u : User) (before cols : ShareColumns) (result : ExecResult) (s1 s2 s3 s4 : σ),
        ContextGetUser ctx = (some u, true) ∧
        env.dbQueryRowScan s getDBShareQuery [SqlValue.str u.AccountId, SqlValue.str id] =
          (Except.ok before, s1) ∧
        env.dbPrepare s1 updatePermissionsStmt = (Except.ok (), s2) ∧
        env.dbExec s2 updatePermissionsStmt
          [SqlValue.int (if readOnly then 1 else 15), SqlValue.str u.AccountId,
           SqlValue.str id] = (Except.ok result, s3) ∧
        env.dbQueryRowScan s3 getDBShareQuery [SqlValue.str u.AccountId, SqlValue.str id] =
          (Except.ok cols, s4) ∧
        share.ReadOnly = decide (cols.permissions = 1) ∧
        (cols.permissions = (if readOnly then 1 else 15) → share.ReadOnly = readOnly) ∧
        UpdateFolderShare api env ctx id true readOnly s =
          { out := Outcome.ok share
            state := s4
            events :=
              [Event.dbQueryRow getDBShareQuery [SqlValue.str u.AccountId, SqlValue.str id],
               Event.dbPrepare updatePermissionsStmt,
               Event.dbExec updatePermissionsStmt
                [SqlValue.int (if readOnly then 1 else 15), SqlValue.str u.AccountId,
                 SqlValue.str id],
               Event.dbQueryRow getDBShareQuery
                [SqlValue.str u.AccountId, SqlValue.str id]] }) ∧
    (∀ id updateReadOnly stmt args,
      Event.dbExec stmt args ∈
          (UpdateFolderShare api env ctx id updateReadOnly readOnly s).events →
        updateReadOnly = true ∧ stmt = updatePermissionsStmt ∧
        args.get? 0 = some (SqlValue.int (if readOnly then 1 else 15))) ∧
    (∀ id, UpdateFolderShare api env ctx id false readOnly s =
      GetFolderShare api env ctx id s) ∧
    (∀ row : dbShare, ∃ share, convertToFolderShare row = Outcome.ok share ∧
      share.ReadOnly = decide (row.Permissions = 1)) ∧
    (∀ row : dbShare, row.Permissions = (if readOnly then 1 else 15) →
      ∃ share, convertToFolderShare row = Outcome.ok share ∧ share.ReadOnly = readOnly) ∧
    (∀ row : dbShare, row.Permissions ≠ 1 →
      ∃ share, convertToFolderShare row = Outcome.ok share ∧ share.ReadOnly = false) := by
  refine ⟨?_, ?_, ?_, ?_, ?_, ?_, ?_, ?_⟩
  · intro path recipient share h
    exact AddFolderShare_ok api env ctx path recipient readOnly s share h
  · intro path recipient stmt args h
    exact AddFolderShare_exec api env ctx path recipient readOnly s stmt args h
  · intro id share h
    exact UpdateFolderShare_ok api env ctx id readOnly s share h
  · intro id updateReadOnly stmt args h
    exact UpdateFolderShare_exec api env ctx id updateReadOnly readOnly s stmt args h
  · intro id
    exact UpdateFolderShare_without_flag api env ctx id readOnly s
  · intro row
    exact ⟨_, convertToFolderShare_eq row, rfl⟩
  · intro row h
    refine ⟨_, convertToFolderShare_eq row, ?_⟩
    cases readOnly <;> simp [h]
  · intro row h
    exact ⟨_, convertToFolderShare_eq row, by simp [h]⟩

/-- C9 (amended) on the in-memory world: `AddFolderShare` with `readOnly = true`
returns a share, so the insert ran with `permissions` bound to 1 and the share
is the one read from the state it left; for both values of the flag, the row in
the table holds 1 or 15 and is read back with that flag, after
`AddFolderShare` and after `UpdateFolderShare` with `updateReadOnly` set. -/
theorem readOnly_permissions_roundtrip_witness :
    (AddFolderShare sampleApi memEnv aliceCtx (goString "/home/docs") (some bob) true
        memInit).out =
      Outcome.ok { Id := goString "1", Mtime := 1500000000, Path := goString "home:1234",
                   ReadOnly := true, Recipient := some bob } ∧
    (∃ (args : List SqlValue) (cols : ShareColumns) (s3 s4 s5 : MemState)
        (result : ExecResult),
      memEnv.dbExec s3 addFolderShareStmt args = (Except.ok result, s4) ∧
      args.get? 7 = some (SqlValue.int 1) ∧
      memEnv.dbQueryRowScan s4 getDBShareQuery
        [SqlValue.str (goString "alice"), SqlValue.str (goString "1")] =
          (Except.ok cols, s5) ∧
      true = decide (cols.permissions = 1) ∧
      (AddFolderShare sampleApi memEnv aliceCtx (goString "/home/docs") (some bob) true
        memInit).state = s5) ∧
    (∀ b : Bool,
      (AddFolderShare sampleApi memEnv aliceCtx (goString "/home/docs") (some bob) b
        memInit).state.shares.map (fun r => r.2.Permissions) = [if b then 1 else 15]) ∧
    (∀ b : Bool,
      (GetFolderShare sampleApi memEnv aliceCtx (goString "1")
        (AddFolderShare sampleApi memEnv aliceCtx (goString "/home/docs") (some bob) b
          memInit).state).out =
        Outcome.ok { Id := goString "1", Mtime := 1500000000, Path := goString "home:1234",
                     ReadOnly := b, Recipient := some bob }) ∧
    (∀ b : Bool,
      (UpdateFolderShare sampleApi memEnv aliceCtx (goString "1") true b
        (AddFolderShare sampleApi memEnv aliceCtx (goString "/home/docs") (some bob) (!b)
          memInit).state).state.shares.map (fun r => r.2.Permissions) =
        [if b then 1 else 15]) ∧
    (∀ b : Bool,
      (UpdateFolderShare sampleApi memEnv aliceCtx (goString "1") true b
        (AddFolderShare sampleApi memEnv aliceCtx (goString "/home/docs") (some bob) (!b)
          memInit).state).out =
        Outcome.ok { Id := goString "1", Mtime := 1500000000, Path := goString "home:1234",
                     ReadOnly := b, Recipient := some bob }) := by
  refine ⟨by decide, ?_, by decide, by decide, by decide, by decide⟩
  obtain ⟨u, r, md, pfx, item, fileSource, now, lastId, result, cols, s1, s2, s3, s4, s5,
      hu, hr, hmd, hsp, hfs, hnow, hprep, hexec, hlast, hq, hro, -, hrun⟩ :=
    (readOnly_permissions_roundtrip sampleApi memEnv aliceCtx memInit true).1
      (goString "/home/docs") (some bob)
      { Id := goString "1", Mtime := 1500000000, Path := goString "home:1234",
        ReadOnly := true, Recipient := some bob } (by decide)
  have hua : u = alice := by
    have h1 : ContextGetUser aliceCtx = (some alice, true) := by decide
    rw [h1] at hu
    injection hu with h2 _
    injection h2 with h2
    exact h2.symm
  subst hua
  have hid : sprintfD lastId = goString "1" := by
    have h1 : (AddFolderShare sampleApi memEnv aliceCtx (goString "/home/docs") (some bob) true
        memInit).events.get? 3 = some (Event.dbQueryRow getDBShareQuery
          [SqlValue.str (goString "alice"), SqlValue.str (goString "1")]) := rfl
    rw [hrun] at h1
    simp only [List.get?_cons_succ, List.get?_cons_zero, Option.some.injEq,
      Event.dbQueryRow.injEq, List.cons.injEq, SqlValue.str.injEq, true_and, and_true] at h1
    exact h1.2
  rw [hid] at hq
  exact ⟨_, cols, s3, s4, s5, result, hexec, rfl, hq, hro, by rw [hrun]⟩

/-- C10. `convertToFolderShare` returns a share for every row, never an error,
so `ListFolderShares` drops no row: when the context carries a user and
`getDBShares` returns rows for that user, `ListFolderShares` returns as many
shares, in the same order, and the i-th share has `Id` the decimal rendering of
the row's `ID`, `Path = joinFileID row.Prefix row.ItemSource`, and a recipient
of type `USER` exactly when the row's share type is 0, `GROUP` otherwise. -/
theorem ListFolderShares_keeps_rows {σ : Type} (api : ApiDecls) (env : Env σ)
    (ctx : Context) (s s2 : σ) (u : User) (rows : List dbShare) (evs : List Event)
    (hu : ContextGetUser ctx = (some u, true))
    (hdb : getDBShares env u.AccountId s =
      { out := Outcome.ok rows, state := s2, events := evs }) :
    (∀ row : dbShare, ∃ share, convertToFolderShare row = Outcome.ok share) ∧
    ∃ shares, ListFolderShares api env ctx s =
        { out := Outcome.ok shares, state := s2, events := evs } ∧
      shares.length = rows.length ∧
      ∀ i row, rows.get? i = some row →
        ∃ share r, shares.get? i = some share ∧ share.Id = sprintfD row.ID ∧
          share.Path = joinFileID row.Prefix row.ItemSource ∧
          share.Recipient = some r ∧
          (r.Type_ = RecipientType.USER ↔ row.ShareType = 0) ∧
          (r.Type_ = RecipientType.GROUP ↔ row.ShareType ≠ 0) := by
  refine ⟨fun row => ⟨_, convertToFolderShare_eq row⟩, ?_⟩
  obtain ⟨shares, hl, hf⟩ := listLoop_spec rows []
  refine ⟨shares, ?_, hf.length_eq.symm, ?_⟩
  · unfold ListFolderShares
    rw [getUserFromContext_of_user api ctx (some u) hu, Op.lift_ok_bind]
    show (Op.lift (Outcome.ok u) >>= _) s = _
    rw [Op.lift_ok_bind]
    rw [Op.bind_lift_of_ok _ (fun v => listLoop v []) s s2 rows evs hdb, hl]
    rfl
  · intro i row hr
    obtain ⟨share, hs, hc⟩ := forall₂_get? hf i row hr
    rw [convertToFolderShare_eq] at hc
    injection hc with hc
    subst hc
    refine ⟨_, _, hs, rfl, rfl, rfl, ?_, ?_⟩
    · by_cases h0 : row.ShareType = 0 <;> simp [h0]
    · by_cases h0 : row.ShareType = 0 <;> simp [h0]

/-- C10 on the in-memory world `memTwo`, where `alice` owns two of three rows. -/
theorem ListFolderShares_keeps_rows_witness :
    ContextGetUser aliceCtx = (some alice, true) ∧
    getDBShares memEnv alice.AccountId memTwo =
      { out := Outcome.ok aliceRows, state := memTwo,
        events := [Event.dbQuery getDBSharesQuery
          [SqlValue.str (goString "alice"), SqlValue.int 0, SqlValue.int 1]] } ∧
    ∃ shares, (ListFolderShares sampleApi memEnv aliceCtx memTwo).out = Outcome.ok shares ∧
      shares.length = aliceRows.length :=
  ⟨by decide, rfl,
    (ListFolderShares_keeps_rows sampleApi memEnv aliceCtx memTwo memTwo alice aliceRows
      [Event.dbQuery getDBSharesQuery
        [SqlValue.str (goString "alice"), SqlValue.int 0, SqlValue.int 1]]
      (by decide) rfl).2.imp (fun _ h => ⟨congrArg Run.out h.1, h.2.1⟩)⟩

end Reva
